import Mathlib

set_option maxRecDepth 8000

/-!
Verification of the BMKG felt-earthquake pipeline (`bmkg_felt_utils.ts`).

This file gives a shallow embedding of the core of the repository:

* the timezone-shifted identifier computation `computeBmkgEarthquakeId`
  (a model of ECMAScript `Date` UTC component extraction, applied to the
  timestamp shifted by the fixed UTC+7 WIB offset);
* the shake-map URL template `getBmkgShakeMapUrl`;
* the merge engine `mergeFeltEarthquakes` over insertion-ordered maps
  (a model of the JavaScript `Map` plus `deepMerge` from
  `@std/collections`, specialised to the `Earthquake` record shape);
* the feed normalizer built with Zod (`createBmkgApiResSchema`): per-entry
  validation of the raw feed fields, the coordinate / depth / datetime
  parsers, the content fingerprint (SHA-1 over a canonical serialisation
  of five fields) and the future-earthquake anomaly tag.

Modelling conventions:

* Instants are milliseconds since the Unix epoch as `Nat`; the feed's
  timestamps (and everything the pipeline handles) lie at or after 1970,
  so instants before the epoch are outside the model.
* JavaScript numbers produced by `parseFloat` are modelled by `JsNumber`:
  either `nan` or an exact rational (`parseFloat` of a decimal literal).
* The ECMAScript calendar (getUTCFullYear / getUTCMonth / getUTCDate /
  getUTCHours / getUTCMinutes / getUTCSeconds) is modelled directly from
  the ECMA-262 definitions: `YearFromTime` is the largest year whose
  first day is at or before the given day, realised by the fuel-bounded
  search `yearAux`; months come from the cumulative month-length table.
-/

/-! ## Decimal digit strings (model of JS `String(n)` and `padStart(2, "0")`) -/

/-- The ASCII digit character for `d < 10`. -/
def digitChar (d : Nat) : Char := Char.ofNat (48 + d)

/-- Decimal digits of `n`, most significant first; `fuel` bounds the recursion
(`fuel ≥ number of digits` suffices, and `natStr` always passes enough). -/
def natReprChars : Nat → Nat → List Char
  | 0, _ => []
  | fuel + 1, n =>
    if n < 10 then [digitChar n]
    else natReprChars fuel (n / 10) ++ [digitChar (n % 10)]

/-- Model of JavaScript `String(n)` for a non-negative integer `n`. -/
def natStr (n : Nat) : String := ⟨natReprChars (n + 1) n⟩

/-- Model of `String(part).padStart(2, "0")` from the source's
`padTimeComponent`. -/
def padTimeComponent (part : Nat) : String :=
  if part < 10 then ⟨'0' :: natReprChars (part + 1) part⟩ else natStr part

/-- Numeric value of a digit string read in base 10 (the "numerical"
interpretation of an all-digits identifier). -/
def valChars (l : List Char) : Nat :=
  l.foldl (fun acc c => acc * 10 + (c.toNat - 48)) 0

/-- Numeric value of a digit string. -/
def digitsVal (s : String) : Nat := valChars s.data

/-! ## ECMAScript calendar model -/

/-- Gregorian leap-year rule (ECMA-262 `InLeapYear`). -/
def isLeapYear (y : Nat) : Bool :=
  (y % 4 == 0 && y % 100 != 0) || y % 400 == 0

/-- Days in calendar year `y`. -/
def daysInYear (y : Nat) : Nat := if isLeapYear y then 366 else 365

/-- Bounded search realising ECMA-262 `YearFromTime`: starting at year `y`,
walk forward while the remaining day count `d` is at least a full year.
Returns the year together with the 0-based day within that year.
`fuel ≥ d` guarantees the search completes (each step consumes ≥ 365 days). -/
def yearAux : Nat → Nat → Nat → Nat × Nat
  | 0, y, d => (y, d)
  | fuel + 1, y, d =>
    if d < daysInYear y then (y, d)
    else yearAux fuel (y + 1) (d - daysInYear y)

/-- Year and 0-based day-of-year of day number `day` (days since 1970-01-01). -/
def yearDoyOfDay (day : Nat) : Nat × Nat := yearAux day 1970 day

/-- Total days of the `k` consecutive calendar years starting at `y`. -/
def daysInYearsFrom (y : Nat) : Nat → Nat
  | 0 => 0
  | k + 1 => daysInYear y + daysInYearsFrom (y + 1) k

/-- 1-based month and day-of-month from a 0-based day of year
(ECMA-262 `MonthFromTime` / `DateFromTime` boundaries). The month returned
is `getUTCMonth() + 1` as used by the source. -/
def monthDayOfDoy (leap : Bool) (doy : Nat) : Nat × Nat :=
  let il := if leap then 1 else 0
  if doy < 31 then (1, doy + 1)
  else if doy < 59 + il then (2, doy - 31 + 1)
  else if doy < 90 + il then (3, doy - (59 + il) + 1)
  else if doy < 120 + il then (4, doy - (90 + il) + 1)
  else if doy < 151 + il then (5, doy - (120 + il) + 1)
  else if doy < 181 + il then (6, doy - (151 + il) + 1)
  else if doy < 212 + il then (7, doy - (181 + il) + 1)
  else if doy < 243 + il then (8, doy - (212 + il) + 1)
  else if doy < 273 + il then (9, doy - (243 + il) + 1)
  else if doy < 304 + il then (10, doy - (273 + il) + 1)
  else if doy < 334 + il then (11, doy - (304 + il) + 1)
  else (12, doy - (334 + il) + 1)

/-- UTC civil components of an instant, per ECMAScript `Date` accessors. -/
structure DateParts where
  year : Nat
  month : Nat
  day : Nat
  hour : Nat
  minute : Nat
  second : Nat
deriving DecidableEq, Repr

/-- UTC components of `ms` milliseconds since the epoch: the model of
`getUTCFullYear` / `getUTCMonth() + 1` / `getUTCDate` / `getUTCHours` /
`getUTCMinutes` / `getUTCSeconds` on `new Date(ms)`. -/
def datePartsOfMs (ms : Nat) : DateParts :=
  let totalSecs := ms / 1000
  let day := totalSecs / 86400
  let sod := totalSecs % 86400
  let yd := yearDoyOfDay day
  let md := monthDayOfDoy (isLeapYear yd.1) yd.2
  { year := yd.1, month := md.1, day := md.2,
    hour := sod / 3600, minute := sod % 3600 / 60, second := sod % 60 }

/-! ## Identifier computation (`computeBmkgEarthquakeId`) -/

/-- WIB (Western Indonesia Time) is UTC+7, in milliseconds. -/
def WIB_OFFSET : Nat := 7 * 3600000

/-- Model of the source's `computeBmkgEarthquakeId`: shift the UTC instant by
the WIB offset, then concatenate `String(year)` with the five 2-padded
components `MMDDHHmmss`. -/
def computeBmkgEarthquakeId (earthquakeAtMs : Nat) : String :=
  let p := datePartsOfMs (earthquakeAtMs + WIB_OFFSET)
  natStr p.year ++ padTimeComponent p.month ++ padTimeComponent p.day ++
    padTimeComponent p.hour ++ padTimeComponent p.minute ++
    padTimeComponent p.second

/-- Numeric value `YYYY·10^10 + MM·10^8 + DD·10^6 + HH·10^4 + mm·10^2 + ss`
of the identifier's components. -/
def partsNum (p : DateParts) : Nat :=
  p.year * 10000000000 + p.month * 100000000 + p.day * 1000000 +
    p.hour * 10000 + p.minute * 100 + p.second

/-- Numeric value `MM·10^2 + DD` of the month/day pair of a day of year. -/
def mdNum (leap : Bool) (doy : Nat) : Nat :=
  (monthDayOfDoy leap doy).1 * 100 + (monthDayOfDoy leap doy).2

/-- Numeric value `YYYY·10^4 + MM·10^2 + DD` of the civil date of a day
number. -/
def dayNum (day : Nat) : Nat :=
  (yearDoyOfDay day).1 * 10000 +
    mdNum (isLeapYear (yearDoyOfDay day).1) (yearDoyOfDay day).2

/-- Model of `getBmkgShakeMapUrl` (the current `static.bmkg.go.id` form). -/
def getBmkgShakeMapUrl (bmkgEarthquakeId : String) : String :=
  "https://static.bmkg.go.id/" ++ bmkgEarthquakeId ++ ".mmi.jpg"

/-! ## The `Earthquake` record and the merge engine -/

/-- Reason for marking earthquake data as erroneous (source
`ErroneousDataReason`). -/
inductive ErroneousDataReason where
  | FUTURE_EARTHQUAKE
deriving DecidableEq, Repr

/-- The optional `meta` object of an `Earthquake`; its single field is itself
optional in the source type. -/
structure EarthquakeMeta where
  erroneousDataReason : Option ErroneousDataReason
deriving DecidableEq, Repr

/-- A JavaScript number as produced by `parseFloat`: either `NaN` or an exact
decimal value (modelled as a rational). -/
inductive JsNumber where
  | nan
  | val (q : ℚ)
deriving DecidableEq, Repr

/-- The processed earthquake record (source type `Earthquake`). All fields are
required except `meta`. No field holds an array, a `Map` or a `Set`. -/
structure Earthquake where
  bmkgEarthquakeId : String
  fingerprintSha1 : String
  earthquakeAt : String
  latitude : JsNumber
  longitude : JsNumber
  magnitude : JsNumber
  depthInKm : JsNumber
  locationInIndonesian : String
  feltOnStations : String
  shakeMapUrl : String
  meta : Option EarthquakeMeta
deriving DecidableEq, Repr

/-- Key used for merging earthquake datasets (source type `MergeKey`). -/
inductive MergeKey where
  | fingerprintSha1
  | bmkgEarthquakeId
deriving DecidableEq, Repr

/-- The record field selected by a merge key (`earthquake[mergeKey]`). -/
def mergeKeyOf (mk : MergeKey) (e : Earthquake) : String :=
  match mk with
  | .fingerprintSha1 => e.fingerprintSha1
  | .bmkgEarthquakeId => e.bmkgEarthquakeId

/-- First-some choice on optional reasons: the recursive `deepMerge` rule for
a primitive (non-collection) optional field, with the first argument the
fresh value and the second the stale one. -/
def orReason (fresh stale : Option ErroneousDataReason) :
    Option ErroneousDataReason :=
  match fresh with
  | some x => some x
  | none => stale

/-- `deepMerge` on the optional `meta` objects: plain records are merged
recursively, a key present on only one side is retained. -/
def mergeMeta (old fresh : Option EarthquakeMeta) : Option EarthquakeMeta :=
  match old, fresh with
  | some o, some f => some ⟨orReason f.erroneousDataReason o.erroneousDataReason⟩
  | none, f => f
  | o, none => o

/-- `deepMerge(old, fresh, DEEP_MERGE_OPTIONS)` specialised to the
`Earthquake` shape: every required field is present on `fresh` and therefore
takes `fresh`'s value; the optional `meta` record is merged recursively with
`mergeMeta`. (`DEEP_MERGE_OPTIONS` replaces arrays / `Map`s / `Set`s
wholesale, but no `Earthquake` field holds one, so that rule has nothing to
act on here.) -/
def deepMergeEarthquake (old fresh : Earthquake) : Earthquake :=
  { fresh with meta := mergeMeta old.meta fresh.meta }

/-- Insertion-ordered string map with `Earthquake` values, as a list of
key-value pairs in iteration order: the model of the JavaScript `Map`. -/
abbrev EqMap := List (String × Earthquake)

/-- JavaScript `Map.prototype.set`: overwrite in place if the key exists,
else append. -/
def mapSet (m : EqMap) (k : String) (v : Earthquake) : EqMap :=
  match m with
  | [] => [(k, v)]
  | (k', v') :: rest =>
    if k' = k then (k', v) :: rest else (k', v') :: mapSet rest k v

/-- JavaScript `Map.prototype.get` (`undefined` becomes `none`). -/
def mapGet (m : EqMap) (k : String) : Option Earthquake :=
  match m with
  | [] => none
  | (k', v) :: rest => if k' = k then some v else mapGet rest k

/-- `new Map(list.map((e) => [e[mergeKey], e]))`. -/
def buildMap (mk : MergeKey) (l : List Earthquake) : EqMap :=
  l.foldl (fun m e => mapSet m (mergeKeyOf mk e) e) []

/-- One iteration of the source's `freshEarthquakes.forEach` body: look the
fresh record's key up, deep-merge onto an existing entry or insert as new. -/
def mergeStep (mk : MergeKey) (m : EqMap) (fresh : Earthquake) : EqMap :=
  match mapGet m (mergeKeyOf mk fresh) with
  | some old => mapSet m (mergeKeyOf mk fresh) (deepMergeEarthquake old fresh)
  | none => mapSet m (mergeKeyOf mk fresh) fresh

/-- Model of the source's `mergeFeltEarthquakes` (the `options` object is
reduced to its single `mergeKey` member). -/
def mergeFeltEarthquakes (staleEarthquakes freshEarthquakes : List Earthquake)
    (mergeKey : MergeKey) : List Earthquake :=
  (freshEarthquakes.foldl (mergeStep mergeKey)
    (buildMap mergeKey staleEarthquakes)).map Prod.snd

/-- Every entry of the map is keyed by its own record's merge-key field
(the invariant `new Map(list.map((e) => [e[mergeKey], e]))` establishes and
`mergeFeltEarthquakes` maintains). -/
def MapConsistent (mk : MergeKey) (m : EqMap) : Prop :=
  ∀ p ∈ m, p.1 = mergeKeyOf mk p.2

/-- The effect, on one key's value, of folding a run of fresh records that
all carry that key: the first fresh record merges onto (or initialises) the
entry and the rest merge on top. -/
def applyFresh : Option Earthquake → List Earthquake → Option Earthquake
  | o, [] => o
  | some c, f :: fs => applyFresh (some (deepMergeEarthquake c f)) fs
  | none, f :: fs => applyFresh (some f) fs

/-- A sample record (used by concrete witnesses). -/
def eqSampleA : Earthquake :=
  { bmkgEarthquakeId := "20221219055014",
    fingerprintSha1 := "a",
    earthquakeAt := "2022-12-18T22:50:14.000Z",
    latitude := .val 1,
    longitude := .val 2,
    magnitude := .val 5,
    depthInKm := .val 10,
    locationInIndonesian := "Laut Banda",
    feltOnStations := "II Ambon",
    shakeMapUrl := "https://static.bmkg.go.id/20221219055014.mmi.jpg",
    meta := none }

/-- A second sample record sharing `eqSampleA`'s `bmkgEarthquakeId` merge
key (used by concrete witnesses and the duplicate-key counterexample). -/
def eqSampleB : Earthquake :=
  { eqSampleA with
    fingerprintSha1 := "b",
    feltOnStations := "III Ambon",
    meta := some { erroneousDataReason := some .FUTURE_EARTHQUAKE } }

/-! ## Feed normalizer: raw shapes and field parsers -/

/-- A raw JSON field as seen by a `z.string()`-style check: either a string,
or anything else (wrong type or missing), which fails string validation. -/
inductive RawField where
  | str (s : String)
  | nonString
deriving DecidableEq, Repr

/-- A raw feed entry (`Infogempa.gempa[i]`). The `Tanggal`, `Jam`, `Lintang`
and `Bujur` members are validated with `z.unknown()`, which never fails and
whose values are unused, so they are not modelled. -/
structure RawGempa where
  DateTime : RawField
  Coordinates : RawField
  Magnitude : RawField
  Kedalaman : RawField
  Wilayah : RawField
  Dirasakan : RawField
deriving DecidableEq, Repr

/-- The raw feed's `Infogempa` object. -/
structure RawInfogempa where
  gempa : List RawGempa
deriving DecidableEq, Repr

/-- The raw feed document. -/
structure RawDoc where
  Infogempa : RawInfogempa
deriving DecidableEq, Repr

/-- The validated field a Zod issue points at. -/
inductive FieldName where
  | DateTime
  | Coordinates
  | Magnitude
  | Kedalaman
  | Wilayah
  | Dirasakan
deriving DecidableEq, Repr

/-- A validation issue: the index of the offending entry in
`Infogempa.gempa` and the offending field. -/
structure ValidationIssue where
  index : Nat
  field : FieldName
deriving DecidableEq, Repr

/-- Does a character list spell a decimal number literal
(`-? digits (. digits)?`)? This is the number component of Zod's
`z.templateLiteral([z.number(), ...])` patterns (the exponent form never
occurs in the feed and is not modelled). -/
def isNumberLitChars (l : List Char) : Bool :=
  let l1 := match l with
    | '-' :: r => r
    | _ => l
  let intPart := l1.takeWhile Char.isDigit
  let rest := l1.dropWhile Char.isDigit
  if intPart.isEmpty then false
  else
    match rest with
    | [] => true
    | '.' :: fr => !fr.isEmpty && fr.all Char.isDigit
    | _ => false

/-- String form of `isNumberLitChars`. -/
def isNumberLit (s : String) : Bool := isNumberLitChars s.data

/-- Model of JavaScript `parseFloat`: optional sign, then the longest prefix
of digits with an optional fraction; `NaN` when no digit is found. (Leading
whitespace and exponent forms never occur in the feed and are not
modelled.) -/
def parseFloatQ (s : String) : JsNumber :=
  let sgn : Bool × List Char := match s.data with
    | '-' :: r => (true, r)
    | '+' :: r => (false, r)
    | l => (false, l)
  let ip := sgn.2.takeWhile Char.isDigit
  let r1 := sgn.2.dropWhile Char.isDigit
  let fp := match r1 with
    | '.' :: r => r.takeWhile Char.isDigit
    | _ => []
  if ip.isEmpty && fp.isEmpty then .nan
  else
    let mag : ℚ :=
      mkRat (valChars ip * 10 ^ fp.length + valChars fp) (10 ^ fp.length)
    .val (if sgn.1 then -mag else mag)

/-- Split a character list on commas, keeping empty pieces (the semantics
of JavaScript `split(",")`); `acc` holds the current piece reversed. -/
def splitCommaAux : List Char → List Char → List (List Char)
  | [], acc => [acc.reverse]
  | c :: r, acc =>
    if c = ',' then acc.reverse :: splitCommaAux r []
    else splitCommaAux r (c :: acc)

/-- JavaScript `s.split(",")`. -/
def splitOnComma (s : String) : List String :=
  (splitCommaAux s.data []).map (fun l => ⟨l⟩)

/-- Validation of the source's `coordinatesSchema` template
`number "," number`. -/
def coordinatesValid (s : String) : Bool :=
  match splitOnComma s with
  | [a, b] => isNumberLit a && isNumberLit b
  | _ => false

/-- Transform of `coordinatesSchema`: split on `","` and `parseFloat` the two
halves (total; only ever applied to validated strings). -/
def coordinatesParse (s : String) : JsNumber × JsNumber :=
  match splitOnComma s with
  | a :: b :: _ => (parseFloatQ a, parseFloatQ b)
  | [a] => (parseFloatQ a, JsNumber.nan)
  | [] => (JsNumber.nan, JsNumber.nan)

/-- Validation of the source's `depthSchema` template `number " km"`. -/
def kedalamanValid (s : String) : Bool :=
  let n := s.data.length
  decide (3 ≤ n) && s.data.drop (n - 3) == [' ', 'k', 'm'] &&
    isNumberLitChars (s.data.take (n - 3))

/-- Transform of `depthSchema`: `parseFloat(str.slice(0, -3))`. -/
def parseDepthKm (s : String) : JsNumber :=
  parseFloatQ ⟨s.data.take (s.data.length - 3)⟩

/-! ## ISO datetime parsing (Zod `z.iso.datetime({ offset: true })` piped
into `z.coerce.date()`) -/

/-- Read two ASCII digits. -/
def digit2 (l : List Char) : Option (Nat × List Char) :=
  match l with
  | a :: b :: r =>
    if a.isDigit && b.isDigit then
      some ((a.toNat - 48) * 10 + (b.toNat - 48), r)
    else none
  | _ => none

/-- Read four ASCII digits. -/
def digit4 (l : List Char) : Option (Nat × List Char) :=
  match l with
  | a :: b :: c :: d :: r =>
    if a.isDigit && b.isDigit && c.isDigit && d.isDigit then
      some ((a.toNat - 48) * 1000 + (b.toNat - 48) * 100 +
        (c.toNat - 48) * 10 + (d.toNat - 48), r)
    else none
  | _ => none

/-- Expect one fixed character. -/
def expectChar (c : Char) (l : List Char) : Option (List Char) :=
  match l with
  | a :: r => if a = c then some r else none
  | _ => none

/-- Days in month `m` (1-based) of year `y`. -/
def daysInMonth (y m : Nat) : Nat :=
  match m with
  | 1 => 31
  | 2 => if isLeapYear y then 29 else 28
  | 3 => 31
  | 4 => 30
  | 5 => 31
  | 6 => 30
  | 7 => 31
  | 8 => 31
  | 9 => 30
  | 10 => 31
  | 11 => 30
  | 12 => 31
  | _ => 0

/-- Cumulative days before month `m` (1-based) in a year with leap flag
`leap`. -/
def cumDaysBeforeMonth (leap : Bool) (m : Nat) : Nat :=
  (match m with
   | 1 => 0
   | 2 => 31
   | 3 => 59
   | 4 => 90
   | 5 => 120
   | 6 => 151
   | 7 => 181
   | 8 => 212
   | 9 => 243
   | 10 => 273
   | 11 => 304
   | 12 => 334
   | _ => 365) + (if leap && 3 ≤ m then 1 else 0)

/-- Number of leap years `z` with `1 ≤ z ≤ y`. -/
def leapYearsUpTo (y : Nat) : Nat := y / 4 - y / 100 + y / 400

/-- ECMA-262 `DayFromYear` for `y ≥ 1970`: days from 1970-01-01 to the start
of year `y`. -/
def dayFromYear (y : Nat) : Nat :=
  365 * (y - 1970) + (leapYearsUpTo (y - 1) - leapYearsUpTo 1969)

/-- Epoch milliseconds of the given (already validated) UTC civil components
(`y ≥ 1970`). -/
def utcMsOfParts (y mo da h mi s ms : Nat) : Nat :=
  ((dayFromYear y + cumDaysBeforeMonth (isLeapYear y) mo + (da - 1)) * 86400 +
    h * 3600 + mi * 60 + s) * 1000 + ms

/-- Milliseconds named by up to three fractional-second digits (JavaScript
`Date` truncates beyond milliseconds). -/
def msOfFracDigits (ds : List Char) : Nat :=
  valChars (ds.take 3) * 10 ^ (3 - (ds.take 3).length)

/-- Read an optional fractional-second part `.d+`. -/
def parseFrac (l : List Char) : Option (Nat × List Char) :=
  match l with
  | '.' :: r =>
    let ds := r.takeWhile Char.isDigit
    if ds.isEmpty then none
    else some (msOfFracDigits ds, r.dropWhile Char.isDigit)
  | _ => some (0, l)

/-- Read the timezone designator: `Z` or `±HH:MM`; returns the signed offset
in minutes. -/
def parseOffsetMin (l : List Char) : Option (Int × List Char) :=
  match l with
  | 'Z' :: r => some (0, r)
  | '+' :: r =>
    match digit2 r with
    | some (h, r1) =>
      match expectChar ':' r1 with
      | some r2 =>
        match digit2 r2 with
        | some (m, r3) =>
          if h ≤ 23 && m ≤ 59 then some ((h * 60 + m : Nat), r3) else none
        | none => none
      | none => none
    | none => none
  | '-' :: r =>
    match digit2 r with
    | some (h, r1) =>
      match expectChar ':' r1 with
      | some r2 =>
        match digit2 r2 with
        | some (m, r3) =>
          if h ≤ 23 && m ≤ 59 then some (-(h * 60 + m : Nat), r3) else none
        | none => none
      | none => none
    | none => none
  | _ => none

/-- Read `YYYY-MM-DD`. -/
def parseYmd (l : List Char) : Option (Nat × Nat × Nat × List Char) :=
  match digit4 l with
  | none => none
  | some (y, l1) =>
    match expectChar '-' l1 with
    | none => none
    | some l2 =>
      match digit2 l2 with
      | none => none
      | some (mo, l3) =>
        match expectChar '-' l3 with
        | none => none
        | some l4 =>
          match digit2 l4 with
          | none => none
          | some (da, l5) => some (y, mo, da, l5)

/-- Read `HH:mm:ss`. -/
def parseHms (l : List Char) : Option (Nat × Nat × Nat × List Char) :=
  match digit2 l with
  | none => none
  | some (h, l1) =>
    match expectChar ':' l1 with
    | none => none
    | some l2 =>
      match digit2 l2 with
      | none => none
      | some (mi, l3) =>
        match expectChar ':' l3 with
        | none => none
        | some l4 =>
          match digit2 l4 with
          | none => none
          | some (s, l5) => some (h, mi, s, l5)

/-- Read the tail `(.d+)?(Z|±HH:MM)` and return (fractional ms, signed
offset minutes); fails unless the input is fully consumed. -/
def parseFracOffset (l : List Char) : Option (Nat × Int) :=
  match parseFrac l with
  | none => none
  | some (frac, l1) =>
    match parseOffsetMin l1 with
    | none => none
    | some (offMin, l2) => if l2.isEmpty then some (frac, offMin) else none

/-- Range validation of the civil components against the real calendar
(Zod's iso datetime pattern checks true month/day ranges including leap
years; out-of-range values would in any case yield an `Invalid Date` that
`z.date()` rejects). -/
def isoRangesOk (y mo da h mi s : Nat) : Bool :=
  decide (1 ≤ mo) && decide (mo ≤ 12) && decide (1 ≤ da) &&
    decide (da ≤ daysInMonth y mo) && decide (h ≤ 23) && decide (mi ≤ 59) &&
    decide (s ≤ 59) && decide (1970 ≤ y)

/-- Model of `z.iso.datetime({ offset: true }).pipe(z.coerce.date())`:
validate `YYYY-MM-DDTHH:mm:ss(.d+)?(Z|±HH:MM)` with real calendar ranges and
convert to epoch milliseconds. Instants before the epoch (and years before
1970, which the feed never produces) are outside the model and rejected. -/
def parseIsoDatetimeMs (str : String) : Option Nat :=
  match parseYmd str.data with
  | none => none
  | some (y, mo, da, l1) =>
    match expectChar 'T' l1 with
    | none => none
    | some l2 =>
      match parseHms l2 with
      | none => none
      | some (h, mi, s, l3) =>
        match parseFracOffset l3 with
        | none => none
        | some (frac, offMin) =>
          if isoRangesOk y mo da h mi s then
            let t : Int := (utcMsOfParts y mo da h mi s frac : Int) -
              offMin * 60000
            if 0 ≤ t then some t.toNat else none
          else none

/-! ## Fingerprint (SHA-1 over a canonical serialisation of five fields) -/

/-- Canonical string of a `JsNumber` for hashing. -/
def jsNumberStr : JsNumber → String
  | .nan => "NaN"
  | .val q =>
    (if q.num < 0 then "-" else "") ++ natStr q.num.natAbs ++ "/" ++
      natStr q.den

/-- The exact field tuple passed to `hash.sha1` by the source transform. -/
structure FingerprintInput where
  earthquakeAt : String
  latitude : JsNumber
  longitude : JsNumber
  magnitude : JsNumber
  depthInKm : JsNumber
deriving DecidableEq, Repr

/-- Canonical serialisation of the fingerprint input, one `key:value` item
per field in sorted key order: a model of the external `object-hash`
library's canonical, key-order-independent object encoding. -/
def fingerprintPayload (i : FingerprintInput) : String :=
  "depthInKm:" ++ jsNumberStr i.depthInKm ++
    "|earthquakeAt:" ++ i.earthquakeAt ++
    "|latitude:" ++ jsNumberStr i.latitude ++
    "|longitude:" ++ jsNumberStr i.longitude ++
    "|magnitude:" ++ jsNumberStr i.magnitude

/-- Truncate to a 32-bit word. -/
def w32 (n : Nat) : Nat := n % 4294967296

/-- 32-bit left rotation by `k` (argument below `2^32`). -/
def rotl (k n : Nat) : Nat := w32 (n * 2 ^ k + n / 2 ^ (32 - k))

/-- SHA-1 round function. -/
def sha1F (i b c d : Nat) : Nat :=
  if i < 20 then (b &&& c) ||| ((b ^^^ 4294967295) &&& d)
  else if i < 40 then b ^^^ c ^^^ d
  else if i < 60 then (b &&& c) ||| (b &&& d) ||| (c &&& d)
  else b ^^^ c ^^^ d

/-- SHA-1 round constants. -/
def sha1K (i : Nat) : Nat :=
  if i < 20 then 1518500249
  else if i < 40 then 1859775393
  else if i < 60 then 2400959708
  else 3395469782

/-- Message-schedule extension; `acc` holds the words produced so far in
reverse order, `fuel` counts the words still to produce. -/
def scheduleAux : Nat → List Nat → List Nat
  | 0, acc => acc
  | fuel + 1, acc =>
    let a := acc.getD 2 0
    let b := acc.getD 7 0
    let c := acc.getD 13 0
    let d := acc.getD 15 0
    scheduleAux fuel (rotl 1 (a ^^^ b ^^^ c ^^^ d) :: acc)

/-- Big-endian 32-bit words of a byte list (length a multiple of 4). -/
def bytesToWords : List Nat → List Nat
  | a :: b :: c :: d :: r =>
    (a * 16777216 + b * 65536 + c * 256 + d) :: bytesToWords r
  | _ => []

/-- The SHA-1 state. -/
abbrev Sha1State := Nat × Nat × Nat × Nat × Nat

/-- One SHA-1 round. -/
def sha1Round (st : Sha1State) (iw : Nat × Nat) : Sha1State :=
  let (a, b, c, d, e) := st
  (w32 (rotl 5 a + sha1F iw.1 b c d + e + sha1K iw.1 + iw.2),
    a, rotl 30 b, c, d)

/-- Compress one 64-byte chunk into the state. -/
def sha1Chunk (st : Sha1State) (chunk : List Nat) : Sha1State :=
  let ws := bytesToWords chunk
  let w80 := (scheduleAux 64 ws.reverse).reverse
  let (h0, h1, h2, h3, h4) := st
  let r := ((List.range 80).zip w80).foldl sha1Round (h0, h1, h2, h3, h4)
  (w32 (h0 + r.1), w32 (h1 + r.2.1), w32 (h2 + r.2.2.1),
    w32 (h3 + r.2.2.2.1), w32 (h4 + r.2.2.2.2))

/-- Fold the compression over all 64-byte chunks; `fuel ≥ number of bytes`
bounds the recursion. -/
def sha1Chunks : Nat → Sha1State → List Nat → Sha1State
  | 0, st, _ => st
  | fuel + 1, st, bytes =>
    if bytes.isEmpty then st
    else sha1Chunks fuel (sha1Chunk st (bytes.take 64)) (bytes.drop 64)

/-- Big-endian 8-byte encoding of a length in bits. -/
def lenBytes8 (n : Nat) : List Nat :=
  [n / 72057594037927936 % 256, n / 281474976710656 % 256,
   n / 1099511627776 % 256, n / 4294967296 % 256, n / 16777216 % 256,
   n / 65536 % 256, n / 256 % 256, n % 256]

/-- SHA-1 message padding. -/
def sha1Pad (msg : List Nat) : List Nat :=
  let padZeros := (119 - msg.length % 64) % 64
  msg ++ 128 :: List.replicate padZeros 0 ++ lenBytes8 (msg.length * 8)

/-- Lowercase hexadecimal digit for `d < 16`. -/
def hexDigitChar (d : Nat) : Char :=
  if d < 10 then Char.ofNat (48 + d) else Char.ofNat (87 + d)

/-- Eight lowercase hex characters of a 32-bit word. -/
def hex8 (w : Nat) : List Char :=
  (List.range 8).map (fun i => hexDigitChar (w / 16 ^ (7 - i) % 16))

/-- SHA-1 hex digest of a string (the payload is ASCII, so bytes are the
character codes). -/
def sha1Hex (s : String) : String :=
  let bytes := s.data.map (fun c => c.toNat % 256)
  let padded := sha1Pad bytes
  let st := sha1Chunks padded.length
    (1732584193, 4023233417, 2562383102, 271733878, 3285377520) padded
  ⟨hex8 st.1 ++ hex8 st.2.1 ++ hex8 st.2.2.1 ++ hex8 st.2.2.2.1 ++
    hex8 st.2.2.2.2⟩

/-- `hash.sha1({...})` on the five fingerprint fields. -/
def fingerprintSha1Of (i : FingerprintInput) : String :=
  sha1Hex (fingerprintPayload i)

/-! ## Per-entry validation and transform -/

/-- The values of a raw entry after all field schemas succeeded, before the
`.transform`. -/
structure ValidatedGempa where
  dateTimeMs : Nat
  latitude : JsNumber
  longitude : JsNumber
  magnitude : JsNumber
  depthInKm : JsNumber
  wilayah : String
  dirasakan : String
deriving DecidableEq, Repr

/-- All Zod issues of one raw entry. `DateTime`, `Coordinates` and
`Kedalaman` check both stringness and format; `Magnitude`, `Wilayah` and
`Dirasakan` are only `z.string()` (the `Magnitude` transform is
`parseFloat`, which never fails). -/
def gempaFieldIssues (e : RawGempa) : List FieldName :=
  (match e.DateTime with
   | .str s => if (parseIsoDatetimeMs s).isSome then [] else [.DateTime]
   | .nonString => [.DateTime]) ++
  (match e.Coordinates with
   | .str s => if coordinatesValid s then [] else [.Coordinates]
   | .nonString => [.Coordinates]) ++
  (match e.Magnitude with
   | .str _ => []
   | .nonString => [.Magnitude]) ++
  (match e.Kedalaman with
   | .str s => if kedalamanValid s then [] else [.Kedalaman]
   | .nonString => [.Kedalaman]) ++
  (match e.Wilayah with
   | .str _ => []
   | .nonString => [.Wilayah]) ++
  (match e.Dirasakan with
   | .str _ => []
   | .nonString => [.Dirasakan])

/-- Validate one raw entry into its field values (succeeds exactly when
`gempaFieldIssues` is empty). -/
def validateGempa (e : RawGempa) : Option ValidatedGempa :=
  match e.DateTime, e.Coordinates, e.Magnitude, e.Kedalaman, e.Wilayah,
      e.Dirasakan with
  | .str sdt, .str sco, .str sma, .str ske, .str swi, .str sdi =>
    match parseIsoDatetimeMs sdt with
    | none => none
    | some ms =>
      if coordinatesValid sco && kedalamanValid ske then
        some { dateTimeMs := ms,
               latitude := (coordinatesParse sco).1,
               longitude := (coordinatesParse sco).2,
               magnitude := parseFloatQ sma,
               depthInKm := parseDepthKm ske,
               wilayah := swi, dirasakan := sdi }
      else none
  | _, _, _, _, _, _ => none

/-- `Date.prototype.toISOString` for an epoch instant (years 1 to 9999 use
the plain 4-digit form; the feed only produces 4-digit years). -/
def isoStringOfMs (ms : Nat) : String :=
  let p := datePartsOfMs ms
  (if p.year < 10 then "000" ++ natStr p.year
   else if p.year < 100 then "00" ++ natStr p.year
   else if p.year < 1000 then "0" ++ natStr p.year
   else natStr p.year) ++ "-" ++
    padTimeComponent p.month ++ "-" ++ padTimeComponent p.day ++ "T" ++
    padTimeComponent p.hour ++ ":" ++ padTimeComponent p.minute ++ ":" ++
    padTimeComponent p.second ++ "." ++
    (if ms % 1000 < 10 then "00" ++ natStr (ms % 1000)
     else if ms % 1000 < 100 then "0" ++ natStr (ms % 1000)
     else natStr (ms % 1000)) ++ "Z"

/-- The `.transform` body of `createBmkgApiResSchema` applied to one
validated entry with reference time `now` (epoch ms). -/
def transformEntry (now : Nat) (v : ValidatedGempa) : Earthquake :=
  let isFutureEarthquake := now < v.dateTimeMs
  let bmkgId := computeBmkgEarthquakeId v.dateTimeMs
  let earthquakeAtIso := isoStringOfMs v.dateTimeMs
  { earthquakeAt := earthquakeAtIso,
    latitude := v.latitude,
    longitude := v.longitude,
    magnitude := v.magnitude,
    depthInKm := v.depthInKm,
    locationInIndonesian := v.wilayah,
    feltOnStations := v.dirasakan,
    bmkgEarthquakeId := bmkgId,
    shakeMapUrl := getBmkgShakeMapUrl bmkgId,
    fingerprintSha1 := fingerprintSha1Of
      { earthquakeAt := earthquakeAtIso,
        latitude := v.latitude,
        longitude := v.longitude,
        magnitude := v.magnitude,
        depthInKm := v.depthInKm },
    meta := if isFutureEarthquake then
        some { erroneousDataReason := some .FUTURE_EARTHQUAKE }
      else none }

/-- Model of `createBmkgApiResSchema(now).parse`: collect every entry's
issues (tagged with its index); if any exist the whole parse fails with all
of them, otherwise every entry is transformed in order. -/
def parseBmkgApiRes (now : Nat) (doc : RawDoc) :
    Except (List ValidationIssue) (List Earthquake) :=
  let issues := doc.Infogempa.gempa.enum.flatMap
    (fun p => (gempaFieldIssues p.2).map (fun f => ⟨p.1, f⟩))
  if issues.isEmpty then
    .ok ((doc.Infogempa.gempa.filterMap validateGempa).map (transformEntry now))
  else .error issues

/-- Is this character a lowercase hexadecimal digit (`0`-`9` or `a`-`f`)? -/
def isLowerHexChar (c : Char) : Bool :=
  (48 ≤ c.toNat && c.toNat ≤ 57) || (97 ≤ c.toNat && c.toNat ≤ 102)

/-- A valid raw feed entry (used by concrete witnesses). -/
def rawSample : RawGempa :=
  { DateTime := .str "2022-12-18T22:50:14.000Z",
    Coordinates := .str "1.5,2.25",
    Magnitude := .str "5.5",
    Kedalaman := .str "10 km",
    Wilayah := .str "Laut Banda",
    Dirasakan := .str "II Ambon" }

/-- The validated field values of `rawSample`. -/
def vSample : ValidatedGempa :=
  { dateTimeMs := 1671403814000,
    latitude := .val (mkRat 3 2),
    longitude := .val (mkRat 9 4),
    magnitude := .val (mkRat 11 2),
    depthInKm := .val (mkRat 10 1),
    wilayah := "Laut Banda",
    dirasakan := "II Ambon" }

/-- `rawSample` with a magnitude string `parseFloat` cannot parse. -/
def rawBadMag : RawGempa := { rawSample with Magnitude := .str "abc" }

/-- A one-entry document whose entry has an unparsable magnitude string. -/
def badMagDoc : RawDoc := { Infogempa := { gempa := [rawBadMag] } }

/-- `rawSample` with a malformed depth string (missing the `" km"` unit). -/
def rawBadDepth : RawGempa := { rawSample with Kedalaman := .str "30km" }

/-- A one-entry document whose entry has a malformed depth string. -/
def badDepthDoc : RawDoc := { Infogempa := { gempa := [rawBadDepth] } }

/-! ## Lemmas: decimal digit strings -/

theorem valChars_foldl (l : List Char) (acc : Nat) :
    l.foldl (fun a c => a * 10 + (c.toNat - 48)) acc =
      acc * 10 ^ l.length + valChars l := by
  induction l generalizing acc with
  | nil => simp [valChars]
  | cons c l ih =>
    simp only [List.foldl_cons, List.length_cons, valChars] at *
    rw [ih, ih (0 * 10 + (c.toNat - 48))]
    ring

theorem valChars_append (a b : List Char) :
    valChars (a ++ b) = valChars a * 10 ^ b.length + valChars b := by
  unfold valChars
  rw [List.foldl_append, valChars_foldl]
  rfl

theorem digitChar_toNat : ∀ d < 10, (digitChar d).toNat = 48 + d := by decide

theorem digitChar_isDigit : ∀ d < 10, (digitChar d).isDigit = true := by decide

theorem natReprChars_val :
    ∀ fuel n, n < 10 ^ fuel → valChars (natReprChars fuel n) = n := by
  intro fuel
  induction fuel with
  | zero =>
    intro n hn
    interval_cases n
    rfl
  | succ fuel ih =>
    intro n hn
    by_cases h : n < 10
    · simp only [natReprChars, if_pos h, valChars, List.foldl_cons,
        List.foldl_nil]
      rw [digitChar_toNat n h]
      omega
    · simp only [natReprChars, if_neg h]
      rw [valChars_append]
      have hd : n / 10 < 10 ^ fuel := by
        rw [Nat.div_lt_iff_lt_mul (by norm_num)]
        calc n < 10 ^ (fuel + 1) := hn
        _ = 10 ^ fuel * 10 := by ring
      rw [ih (n / 10) hd]
      have hm : n % 10 < 10 := Nat.mod_lt _ (by norm_num)
      simp only [valChars, List.foldl_cons, List.foldl_nil, List.length_cons,
        List.length_nil]
      rw [digitChar_toNat _ hm]
      omega

theorem natReprChars_small (fuel n : Nat) (h : n < 10) :
    natReprChars (fuel + 1) n = [digitChar n] := by
  simp [natReprChars, h]

theorem natReprChars_length :
    ∀ fuel n k, n < 10 ^ fuel → 10 ^ k ≤ n → n < 10 ^ (k + 1) →
      (natReprChars fuel n).length = k + 1 := by
  intro fuel
  induction fuel with
  | zero =>
    intro n k hn hk _
    have : 1 ≤ 10 ^ k := Nat.one_le_pow _ _ (by norm_num)
    omega
  | succ fuel ih =>
    intro n k hn hk hk2
    by_cases h : n < 10
    · have hk0 : k = 0 := by
        by_contra hne
        have h1 : 1 ≤ k := by omega
        have : (10 : Nat) ^ 1 ≤ 10 ^ k := Nat.pow_le_pow_right (by norm_num) h1
        simp at this
        omega
      subst hk0
      simp [natReprChars, h]
    · simp only [natReprChars, if_neg h, List.length_append,
        List.length_cons, List.length_nil]
      have h10 : (10 : Nat) ^ 1 ≤ n := by simpa using not_lt.mp h
      have hk1 : 1 ≤ k := by
        by_contra hne
        have : k = 0 := by omega
        subst this
        simp at hk2
        omega
      have hd : n / 10 < 10 ^ fuel := by
        rw [Nat.div_lt_iff_lt_mul (by norm_num)]
        calc n < 10 ^ (fuel + 1) := hn
        _ = 10 ^ fuel * 10 := by ring
      have hlow : 10 ^ (k - 1) ≤ n / 10 := by
        rw [Nat.le_div_iff_mul_le (by norm_num)]
        calc 10 ^ (k - 1) * 10 = 10 ^ (k - 1 + 1) := by ring
        _ = 10 ^ k := by congr 1; omega
        _ ≤ n := hk
      have hhigh : n / 10 < 10 ^ (k - 1 + 1) := by
        rw [Nat.div_lt_iff_lt_mul (by norm_num)]
        calc n < 10 ^ (k + 1) := hk2
        _ = 10 ^ (k - 1 + 1) * 10 := by
            rw [← pow_succ]
            congr 1
            omega
      rw [ih (n / 10) (k - 1) hd hlow hhigh]
      omega

theorem nat_lt_ten_pow_succ (n : Nat) : n < 10 ^ (n + 1) := by
  calc n < n + 1 := Nat.lt_succ_self n
  _ ≤ 10 ^ (n + 1) := Nat.le_of_lt (Nat.lt_pow_self (by norm_num) _)

theorem natStr_val (n : Nat) : digitsVal (natStr n) = n :=
  natReprChars_val (n + 1) n (nat_lt_ten_pow_succ n)

theorem natStr_length_four (y : Nat) (h1 : 1000 ≤ y) (h2 : y ≤ 9999) :
    (natStr y).data.length = 4 := by
  show (natReprChars (y + 1) y).length = 4
  have := natReprChars_length (y + 1) y 3 (nat_lt_ten_pow_succ y)
    (by norm_num; omega) (by norm_num; omega)
  simpa using this

theorem padTimeComponent_length (p : Nat) (h : p < 100) :
    (padTimeComponent p).data.length = 2 := by
  unfold padTimeComponent
  by_cases hp : p < 10
  · simp only [if_pos hp]
    show ('0' :: natReprChars (p + 1) p).length = 2
    rw [natReprChars_small _ _ hp]
    rfl
  · simp only [if_neg hp]
    show (natReprChars (p + 1) p).length = 2
    have := natReprChars_length (p + 1) p 1 (nat_lt_ten_pow_succ p)
      (by norm_num; omega) (by norm_num; omega)
    simpa using this

theorem padTimeComponent_val (p : Nat) (h : p < 100) :
    digitsVal (padTimeComponent p) = p := by
  unfold padTimeComponent
  by_cases hp : p < 10
  · simp only [if_pos hp]
    show valChars ('0' :: natReprChars (p + 1) p) = p
    rw [natReprChars_small _ _ hp]
    show valChars ['0', digitChar p] = p
    simp only [valChars, List.foldl_cons, List.foldl_nil]
    rw [digitChar_toNat p hp]
    show (0 * 10 + ('0'.toNat - 48)) * 10 + (48 + p - 48) = p
    have h0 : '0'.toNat = 48 := by decide
    rw [h0]
    omega
  · simp only [if_neg hp]
    exact natStr_val p

theorem natReprChars_all_digits :
    ∀ fuel n c, c ∈ natReprChars fuel n → c.isDigit = true := by
  intro fuel
  induction fuel with
  | zero => intro n c hc; simp [natReprChars] at hc
  | succ fuel ih =>
    intro n c hc
    by_cases h : n < 10
    · rw [natReprChars_small _ _ h] at hc
      simp at hc
      subst hc
      exact digitChar_isDigit n h
    · simp only [natReprChars, if_neg h, List.mem_append] at hc
      rcases hc with hc | hc
      · exact ih _ _ hc
      · simp at hc
        subst hc
        exact digitChar_isDigit _ (Nat.mod_lt _ (by norm_num))

theorem padTimeComponent_all_digits (p : Nat) :
    ∀ c ∈ (padTimeComponent p).data, c.isDigit = true := by
  intro c hc
  unfold padTimeComponent at hc
  by_cases hp : p < 10
  · simp only [if_pos hp] at hc
    rw [natReprChars_small _ _ hp] at hc
    simp at hc
    rcases hc with hc | hc
    · subst hc; rfl
    · subst hc; exact digitChar_isDigit p hp
  · simp only [if_neg hp] at hc
    exact natReprChars_all_digits _ _ _ hc

theorem string_data_append (a b : String) : (a ++ b).data = a.data ++ b.data := by
  cases a
  cases b
  rfl

theorem string_length_eq (s : String) : s.length = s.data.length := rfl


/-! ## Lemmas: the calendar model -/

theorem daysInYear_ge (y : Nat) : 365 ≤ daysInYear y := by
  unfold daysInYear
  split <;> omega

theorem daysInYear_le (y : Nat) : daysInYear y ≤ 366 := by
  unfold daysInYear
  split <;> omega

theorem yearAux_zero_doy (fuel y : Nat) : yearAux fuel y 0 = (y, 0) := by
  cases fuel with
  | zero => rfl
  | succ fuel =>
    have := daysInYear_ge y
    simp only [yearAux]
    rw [if_pos (by omega)]

theorem yearAux_unfold_succ (fuel y d : Nat) :
    yearAux (fuel + 1) y d =
      if d < daysInYear y then (y, d)
      else yearAux fuel (y + 1) (d - daysInYear y) := rfl

theorem yearAux_fuel_irrel (f1 : Nat) :
    ∀ f2 y d, d ≤ f1 → d ≤ f2 → yearAux f1 y d = yearAux f2 y d := by
  induction f1 with
  | zero =>
    intro f2 y d h1 _
    have hd : d = 0 := by omega
    subst hd
    rw [yearAux_zero_doy, yearAux_zero_doy]
  | succ f1 ih =>
    intro f2 y d h1 h2
    cases f2 with
    | zero =>
      have hd : d = 0 := by omega
      subst hd
      rw [yearAux_zero_doy, yearAux_zero_doy]
    | succ f2 =>
      simp only [yearAux]
      by_cases hd : d < daysInYear y
      · rw [if_pos hd, if_pos hd]
      · rw [if_neg hd, if_neg hd]
        have h365 := daysInYear_ge y
        exact ih f2 (y + 1) (d - daysInYear y) (by omega) (by omega)

theorem yearAux_snd_lt (fuel : Nat) :
    ∀ y d, d ≤ fuel →
      (yearAux fuel y d).2 < daysInYear (yearAux fuel y d).1 := by
  induction fuel with
  | zero =>
    intro y d h1
    have hd : d = 0 := by omega
    subst hd
    have := daysInYear_ge y
    simp only [yearAux]
    omega
  | succ fuel ih =>
    intro y d h1
    simp only [yearAux]
    by_cases hd : d < daysInYear y
    · rw [if_pos hd]
      exact hd
    · rw [if_neg hd]
      have h365 := daysInYear_ge y
      exact ih (y + 1) (d - daysInYear y) (by omega)

theorem yearAux_fst_ge (fuel : Nat) :
    ∀ y d, y ≤ (yearAux fuel y d).1 := by
  induction fuel with
  | zero => intro y d; exact Nat.le_refl y
  | succ fuel ih =>
    intro y d
    simp only [yearAux]
    by_cases hd : d < daysInYear y
    · rw [if_pos hd]
    · rw [if_neg hd]
      calc y ≤ y + 1 := Nat.le_succ y
      _ ≤ _ := ih (y + 1) (d - daysInYear y)

theorem yearAux_succ_step (fuel : Nat) :
    ∀ y d, d ≤ fuel →
      yearAux (fuel + 1) y (d + 1) =
        (if (yearAux fuel y d).2 + 1 < daysInYear (yearAux fuel y d).1
         then ((yearAux fuel y d).1, (yearAux fuel y d).2 + 1)
         else ((yearAux fuel y d).1 + 1, 0)) := by
  induction fuel with
  | zero =>
    intro y d h1
    have hd : d = 0 := by omega
    subst hd
    have h365 := daysInYear_ge y
    simp only [yearAux]
    rw [if_pos (by omega : (1 : Nat) < daysInYear y)]
    rw [if_pos (by omega : (0 : Nat) + 1 < daysInYear y)]
  | succ fuel ih =>
    intro y d h1
    have h365 := daysInYear_ge y
    rw [yearAux_unfold_succ (fuel + 1) y (d + 1), yearAux_unfold_succ fuel y d]
    by_cases hc1 : d + 1 < daysInYear y
    · have hc2 : d < daysInYear y := by omega
      rw [if_pos hc1, if_pos hc2]
      simp [hc1]
    · by_cases hc2 : d < daysInYear y
      · have he : d + 1 - daysInYear y = 0 := by omega
        rw [if_neg hc1, if_pos hc2, he, yearAux_zero_doy]
        simp [hc1]
      · have he : d + 1 - daysInYear y = (d - daysInYear y) + 1 := by omega
        rw [if_neg hc1, if_neg hc2, he]
        exact ih (y + 1) (d - daysInYear y) (by omega)

theorem mdNum_step_leap :
    ∀ d < 365, mdNum true d < mdNum true (d + 1) := by decide

theorem mdNum_step_noleap :
    ∀ d < 364, mdNum false d < mdNum false (d + 1) := by decide

theorem mdNum_ub_true : ∀ d < 366, mdNum true d ≤ 1231 := by decide

theorem mdNum_ub_false : ∀ d < 365, mdNum false d ≤ 1231 := by decide

theorem mdNum_zero_true : mdNum true 0 = 101 := by decide

theorem mdNum_zero_false : mdNum false 0 = 101 := by decide

theorem monthDay_bounds_true :
    ∀ d < 366, 1 ≤ (monthDayOfDoy true d).1 ∧ (monthDayOfDoy true d).1 ≤ 12 ∧
      1 ≤ (monthDayOfDoy true d).2 ∧ (monthDayOfDoy true d).2 ≤ 31 := by decide

theorem monthDay_bounds_false :
    ∀ d < 365, 1 ≤ (monthDayOfDoy false d).1 ∧
      (monthDayOfDoy false d).1 ≤ 12 ∧
      1 ≤ (monthDayOfDoy false d).2 ∧ (monthDayOfDoy false d).2 ≤ 31 := by
  decide

theorem dayNum_lt_succ (z : Nat) : dayNum z < dayNum (z + 1) := by
  unfold dayNum yearDoyOfDay
  have hstep := yearAux_succ_step z 1970 z (Nat.le_refl z)
  have hlt := yearAux_snd_lt z 1970 z (Nat.le_refl z)
  rw [hstep]
  by_cases h : (yearAux z 1970 z).2 + 1 < daysInYear (yearAux z 1970 z).1
  · rw [if_pos h]
    simp only []
    have hmd : mdNum (isLeapYear (yearAux z 1970 z).1) (yearAux z 1970 z).2 <
        mdNum (isLeapYear (yearAux z 1970 z).1) ((yearAux z 1970 z).2 + 1) := by
      by_cases hleap : isLeapYear (yearAux z 1970 z).1
      · rw [hleap]
        apply mdNum_step_leap
        have : daysInYear (yearAux z 1970 z).1 = 366 := by
          unfold daysInYear
          rw [if_pos hleap]
        omega
      · rw [Bool.not_eq_true] at hleap
        rw [hleap]
        apply mdNum_step_noleap
        have : daysInYear (yearAux z 1970 z).1 = 365 := by
          unfold daysInYear
          rw [if_neg (by simp [hleap])]
        omega
    omega
  · rw [if_neg h]
    simp only []
    have hub : mdNum (isLeapYear (yearAux z 1970 z).1) (yearAux z 1970 z).2 ≤
        1231 := by
      by_cases hleap : isLeapYear (yearAux z 1970 z).1
      · have hb : daysInYear (yearAux z 1970 z).1 = 366 := by
          unfold daysInYear
          rw [if_pos hleap]
        rw [hleap]
        exact mdNum_ub_true (yearAux z 1970 z).2 (by omega)
      · rw [Bool.not_eq_true] at hleap
        have hb : daysInYear (yearAux z 1970 z).1 = 365 := by
          unfold daysInYear
          rw [if_neg (by simp [hleap])]
        rw [hleap]
        exact mdNum_ub_false (yearAux z 1970 z).2 (by omega)
    have hz : mdNum (isLeapYear ((yearAux z 1970 z).1 + 1)) 0 = 101 := by
      by_cases hleap : isLeapYear ((yearAux z 1970 z).1 + 1)
      · rw [hleap]; exact mdNum_zero_true
      · rw [Bool.not_eq_true] at hleap; rw [hleap]; exact mdNum_zero_false
    rw [hz]
    omega

theorem dayNum_mono (z1 z2 : Nat) (h : z1 < z2) : dayNum z1 < dayNum z2 := by
  induction z2 with
  | zero => omega
  | succ z2 ih =>
    by_cases he : z1 = z2
    · subst he
      exact dayNum_lt_succ z1
    · calc dayNum z1 < dayNum z2 := ih (by omega)
      _ < dayNum (z2 + 1) := dayNum_lt_succ z2

theorem dateParts_bounds (ms : Nat) :
    1 ≤ (datePartsOfMs ms).month ∧ (datePartsOfMs ms).month ≤ 12 ∧
    1 ≤ (datePartsOfMs ms).day ∧ (datePartsOfMs ms).day ≤ 31 ∧
    (datePartsOfMs ms).hour ≤ 23 ∧ (datePartsOfMs ms).minute ≤ 59 ∧
    (datePartsOfMs ms).second ≤ 59 ∧ 1970 ≤ (datePartsOfMs ms).year := by
  unfold datePartsOfMs yearDoyOfDay
  simp only []
  set day := ms / 1000 / 86400 with hday
  set sod := ms / 1000 % 86400 with hsod
  have hdoy := yearAux_snd_lt day 1970 day (Nat.le_refl day)
  have hyear := yearAux_fst_ge day 1970 day
  have hle := daysInYear_le (yearAux day 1970 day).1
  have hsodlt : sod < 86400 := Nat.mod_lt _ (by norm_num)
  refine ⟨?_, ?_, ?_, ?_, ?_, ?_, ?_, ?_⟩
  · by_cases hleap : isLeapYear (yearAux day 1970 day).1
    · rw [hleap]
      exact (monthDay_bounds_true (yearAux day 1970 day).2 (by omega)).1
    · rw [Bool.not_eq_true] at hleap
      rw [hleap]
      have h365 : daysInYear (yearAux day 1970 day).1 = 365 := by
        unfold daysInYear
        rw [if_neg (by simp [hleap])]
      exact (monthDay_bounds_false (yearAux day 1970 day).2 (by omega)).1
  · by_cases hleap : isLeapYear (yearAux day 1970 day).1
    · rw [hleap]
      exact (monthDay_bounds_true (yearAux day 1970 day).2 (by omega)).2.1
    · rw [Bool.not_eq_true] at hleap
      rw [hleap]
      have h365 : daysInYear (yearAux day 1970 day).1 = 365 := by
        unfold daysInYear
        rw [if_neg (by simp [hleap])]
      exact (monthDay_bounds_false (yearAux day 1970 day).2 (by omega)).2.1
  · by_cases hleap : isLeapYear (yearAux day 1970 day).1
    · rw [hleap]
      exact (monthDay_bounds_true (yearAux day 1970 day).2 (by omega)).2.2.1
    · rw [Bool.not_eq_true] at hleap
      rw [hleap]
      have h365 : daysInYear (yearAux day 1970 day).1 = 365 := by
        unfold daysInYear
        rw [if_neg (by simp [hleap])]
      exact (monthDay_bounds_false (yearAux day 1970 day).2 (by omega)).2.2.1
  · by_cases hleap : isLeapYear (yearAux day 1970 day).1
    · rw [hleap]
      exact (monthDay_bounds_true (yearAux day 1970 day).2 (by omega)).2.2.2
    · rw [Bool.not_eq_true] at hleap
      rw [hleap]
      have h365 : daysInYear (yearAux day 1970 day).1 = 365 := by
        unfold daysInYear
        rw [if_neg (by simp [hleap])]
      exact (monthDay_bounds_false (yearAux day 1970 day).2 (by omega)).2.2.2
  · omega
  · omega
  · omega
  · exact hyear

/-! ## Lemmas: identifier value and monotonicity -/

theorem digitsVal_append (a b : String) :
    digitsVal (a ++ b) = digitsVal a * 10 ^ b.data.length + digitsVal b := by
  unfold digitsVal
  rw [string_data_append, valChars_append]

theorem partsNum_eq (ms : Nat) :
    partsNum (datePartsOfMs ms) =
      dayNum (ms / 1000 / 86400) * 1000000 +
        (ms / 1000 % 86400 / 3600 * 10000 +
          ms / 1000 % 86400 % 3600 / 60 * 100 + ms / 1000 % 86400 % 60) := by
  simp only [partsNum, datePartsOfMs, dayNum, yearDoyOfDay, mdNum]
  ring

theorem timeNum_bound (sod : Nat) (h : sod < 86400) :
    sod / 3600 * 10000 + sod % 3600 / 60 * 100 + sod % 60 < 1000000 := by
  omega

theorem timeNum_mono (r1 r2 : Nat) (h : r1 < r2) (h2 : r2 < 86400) :
    r1 / 3600 * 10000 + r1 % 3600 / 60 * 100 + r1 % 60 <
      r2 / 3600 * 10000 + r2 % 3600 / 60 * 100 + r2 % 60 := by
  omega

theorem partsNum_lt (m1 m2 : Nat) (h : m1 / 1000 < m2 / 1000) :
    partsNum (datePartsOfMs m1) < partsNum (datePartsOfMs m2) := by
  rw [partsNum_eq, partsNum_eq]
  have hcase : m1 / 1000 / 86400 < m2 / 1000 / 86400 ∨
      (m1 / 1000 / 86400 = m2 / 1000 / 86400 ∧
        m1 / 1000 % 86400 < m2 / 1000 % 86400) := by omega
  rcases hcase with hc | ⟨he, hr⟩
  · have hd := dayNum_mono _ _ hc
    have hb1 := timeNum_bound (m1 / 1000 % 86400) (by omega)
    have hb2 := timeNum_bound (m2 / 1000 % 86400) (by omega)
    omega
  · rw [he]
    have := timeNum_mono (m1 / 1000 % 86400) (m2 / 1000 % 86400) hr (by omega)
    omega

theorem digitsVal_six (A B C D E F : String)
    (lb : B.data.length = 2) (lc : C.data.length = 2)
    (ld : D.data.length = 2) (le2 : E.data.length = 2)
    (lf : F.data.length = 2) :
    digitsVal (A ++ B ++ C ++ D ++ E ++ F) =
      digitsVal A * 10000000000 + digitsVal B * 100000000 +
        digitsVal C * 1000000 + digitsVal D * 10000 + digitsVal E * 100 +
        digitsVal F := by
  rw [digitsVal_append, digitsVal_append, digitsVal_append, digitsVal_append,
    digitsVal_append, lb, lc, ld, le2, lf]
  ring

theorem digitsVal_id (t : Nat) :
    digitsVal (computeBmkgEarthquakeId t) =
      partsNum (datePartsOfMs (t + WIB_OFFSET)) := by
  obtain ⟨h1, h2, h3, h4, h5, h6, h7, h8⟩ := dateParts_bounds (t + WIB_OFFSET)
  simp only [computeBmkgEarthquakeId]
  rw [digitsVal_six (natStr (datePartsOfMs (t + WIB_OFFSET)).year)
    (padTimeComponent (datePartsOfMs (t + WIB_OFFSET)).month)
    (padTimeComponent (datePartsOfMs (t + WIB_OFFSET)).day)
    (padTimeComponent (datePartsOfMs (t + WIB_OFFSET)).hour)
    (padTimeComponent (datePartsOfMs (t + WIB_OFFSET)).minute)
    (padTimeComponent (datePartsOfMs (t + WIB_OFFSET)).second)
    (padTimeComponent_length (datePartsOfMs (t + WIB_OFFSET)).month (by omega))
    (padTimeComponent_length (datePartsOfMs (t + WIB_OFFSET)).day (by omega))
    (padTimeComponent_length (datePartsOfMs (t + WIB_OFFSET)).hour (by omega))
    (padTimeComponent_length (datePartsOfMs (t + WIB_OFFSET)).minute (by omega))
    (padTimeComponent_length (datePartsOfMs (t + WIB_OFFSET)).second (by omega))]
  rw [padTimeComponent_val (datePartsOfMs (t + WIB_OFFSET)).month (by omega),
    padTimeComponent_val (datePartsOfMs (t + WIB_OFFSET)).day (by omega),
    padTimeComponent_val (datePartsOfMs (t + WIB_OFFSET)).hour (by omega),
    padTimeComponent_val (datePartsOfMs (t + WIB_OFFSET)).minute (by omega),
    padTimeComponent_val (datePartsOfMs (t + WIB_OFFSET)).second (by omega), natStr_val]
  simp only [partsNum]

/-! ## Lemmas: 400-year periodicity of the calendar (used to evaluate the
model at far-future instants without deep kernel recursion) -/

theorem isLeapYear_add_400 (y : Nat) : isLeapYear (y + 400) = isLeapYear y := by
  simp [isLeapYear, show (y + 400) % 4 = y % 4 by omega,
    show (y + 400) % 100 = y % 100 by omega,
    show (y + 400) % 400 = y % 400 by omega]

theorem daysInYear_add_400 (y : Nat) : daysInYear (y + 400) = daysInYear y := by
  unfold daysInYear
  rw [isLeapYear_add_400]

theorem yearAux_consume :
    ∀ k fuel y d, yearAux (fuel + k) y (d + daysInYearsFrom y k) =
      yearAux fuel (y + k) d := by
  intro k
  induction k with
  | zero => intro fuel y d; simp [daysInYearsFrom]
  | succ k ih =>
    intro fuel y d
    have h365 := daysInYear_ge y
    have hne : ¬(d + daysInYearsFrom y (k + 1) < daysInYear y) := by
      simp only [daysInYearsFrom]
      omega
    rw [show fuel + (k + 1) = (fuel + k) + 1 by omega,
      yearAux_unfold_succ, if_neg hne]
    have harg : d + daysInYearsFrom y (k + 1) - daysInYear y =
        d + daysInYearsFrom (y + 1) k := by
      simp only [daysInYearsFrom]
      omega
    rw [harg, ih (fuel) (y + 1) d,
      show y + 1 + k = y + (k + 1) from by omega]

theorem yearAux_shift400 :
    ∀ fuel y d, yearAux fuel (y + 400) d =
      ((yearAux fuel y d).1 + 400, (yearAux fuel y d).2) := by
  intro fuel
  induction fuel with
  | zero => intro y d; rfl
  | succ fuel ih =>
    intro y d
    rw [yearAux_unfold_succ, yearAux_unfold_succ, daysInYear_add_400]
    by_cases hd : d < daysInYear y
    · rw [if_pos hd, if_pos hd]
    · rw [if_neg hd, if_neg hd]
      rw [show y + 400 + 1 = (y + 1) + 400 by omega]
      exact ih (y + 1) (d - daysInYear y)

theorem yearDoy_period (d : Nat) :
    yearDoyOfDay (d + 146097) = ((yearDoyOfDay d).1 + 400, (yearDoyOfDay d).2) := by
  unfold yearDoyOfDay
  have hsum : daysInYearsFrom 1970 400 = 146097 := by decide
  have hfuel : d + 146097 - 400 + 400 = d + 146097 := by omega
  have h1 : yearAux (d + 146097) 1970 (d + 146097) =
      yearAux (d + 146097 - 400 + 400) 1970 (d + daysInYearsFrom 1970 400) := by
    rw [hsum, hfuel]
  rw [h1, yearAux_consume 400 (d + 146097 - 400) 1970 d]
  rw [yearAux_fuel_irrel (d + 146097 - 400) d (1970 + 400) d (by omega)
    (Nat.le_refl d)]
  exact yearAux_shift400 d 1970 d

theorem yearDoy_period_mul (k : Nat) :
    ∀ d, yearDoyOfDay (d + 146097 * k) =
      ((yearDoyOfDay d).1 + 400 * k, (yearDoyOfDay d).2) := by
  induction k with
  | zero => intro d; simp
  | succ k ih =>
    intro d
    have : d + 146097 * (k + 1) = (d + 146097 * k) + 146097 := by ring
    rw [this, yearDoy_period, ih d]
    rw [show (yearDoyOfDay d).1 + 400 * k + 400 =
      (yearDoyOfDay d).1 + 400 * (k + 1) from by ring]

/-! ## Claim theorems: identifier (C4, C5) -/

theorem yearDoy_10000 : yearDoyOfDay 2932897 = (10000, 0) := by
  have h := yearDoy_period_mul 20 10957
  rw [show yearDoyOfDay 10957 = (2000, 0) from by decide] at h
  rw [show (2932897 : Nat) = 10957 + 146097 * 20 from by norm_num]
  rw [h]

theorem dateParts_10000 :
    datePartsOfMs (253402275600000 + WIB_OFFSET) =
      { year := 10000, month := 1, day := 1, hour := 0, minute := 0,
        second := 0 } := by
  show datePartsOfMs 253402300800000 = _
  simp only [datePartsOfMs]
  rw [show (253402300800000 : Nat) / 1000 / 86400 = 2932897 from by norm_num,
    show (253402300800000 : Nat) / 1000 % 86400 = 0 from by norm_num,
    yearDoy_10000]
  decide

/-- Claim C4, amended: for every instant whose UTC+7 civil year is at most
9999 (the year is at least 1970 on the whole modelled domain),
`computeBmkgEarthquakeId` returns a string of exactly 14 ASCII digits
formatted `YYYYMMDDHHMMSS` in UTC+7 (by construction it is the
concatenation of the year digits and the five 2-zero-padded components);
the two example inputs from the claim evaluate as stated. For UTC+7 years
10000 and beyond — still within JavaScript's `Date` range — the identifier
is longer than 14 digits (see the counterexample). -/
theorem c4_identifier_format :
    (∀ t : Nat, (datePartsOfMs (t + WIB_OFFSET)).year ≤ 9999 →
      (computeBmkgEarthquakeId t).data.length = 14 ∧
      ∀ c ∈ (computeBmkgEarthquakeId t).data, c.isDigit = true) ∧
    parseIsoDatetimeMs "2022-12-18T22:50:14.000Z" = some 1671403814000 ∧
    computeBmkgEarthquakeId 1671403814000 = "20221219055014" ∧
    parseIsoDatetimeMs "2022-01-09T02:03:05.000Z" = some 1641693785000 ∧
    computeBmkgEarthquakeId 1641693785000 = "20220109090305" := by
  refine ⟨?_, by decide, by decide, by decide, by decide⟩
  intro t hy
  obtain ⟨h1, h2, h3, h4, h5, h6, h7, h8⟩ := dateParts_bounds (t + WIB_OFFSET)
  constructor
  · simp only [computeBmkgEarthquakeId, string_data_append,
      List.length_append]
    rw [natStr_length_four _ (by omega) hy,
      padTimeComponent_length _ (by omega),
      padTimeComponent_length _ (by omega),
      padTimeComponent_length _ (by omega),
      padTimeComponent_length _ (by omega),
      padTimeComponent_length _ (by omega)]
  · intro c hc
    simp only [computeBmkgEarthquakeId, string_data_append,
      List.mem_append] at hc
    rcases hc with ((((hc | hc) | hc) | hc) | hc) | hc
    · exact natReprChars_all_digits _ _ _ hc
    · exact padTimeComponent_all_digits _ _ hc
    · exact padTimeComponent_all_digits _ _ hc
    · exact padTimeComponent_all_digits _ _ hc
    · exact padTimeComponent_all_digits _ _ hc
    · exact padTimeComponent_all_digits _ _ hc

/-- Witness for C4's amended theorem at the first example instant. -/
theorem c4_identifier_format_witness :
    (datePartsOfMs (1671403814000 + WIB_OFFSET)).year ≤ 9999 ∧
    ((computeBmkgEarthquakeId 1671403814000).data.length = 14 ∧
      ∀ c ∈ (computeBmkgEarthquakeId 1671403814000).data, c.isDigit = true) :=
  ⟨by decide, c4_identifier_format.1 1671403814000 (by decide)⟩

/-- Counterexample to claim C4 as stated: at the JavaScript-representable
instant 253402275600000 ms (9999-12-31T17:00:00Z, i.e. 10000-01-01 00:00:00
in UTC+7) the identifier has 15 digits, not 14. -/
theorem c4_counterexample :
    (computeBmkgEarthquakeId 253402275600000).data.length = 15 ∧
    ¬((computeBmkgEarthquakeId 253402275600000).data.length = 14) := by
  have h : (computeBmkgEarthquakeId 253402275600000).data.length = 15 := by
    simp only [computeBmkgEarthquakeId, dateParts_10000]
    decide
  exact ⟨h, by omega⟩

/-- Claim C5: identifiers are strictly increasing (as base-10 numbers) in
the timestamp, for timestamps at least one whole second apart. -/
theorem c5_identifier_monotone (t1 t2 : Nat) (h : t1 + 1000 ≤ t2) :
    digitsVal (computeBmkgEarthquakeId t1) <
      digitsVal (computeBmkgEarthquakeId t2) := by
  rw [digitsVal_id, digitsVal_id]
  apply partsNum_lt
  simp only [WIB_OFFSET]
  omega

/-- Witness for C5 at two concrete instants one second apart. -/
theorem c5_identifier_monotone_witness :
    1671403814000 + 1000 ≤ (1671403815000 : Nat) ∧
    digitsVal (computeBmkgEarthquakeId 1671403814000) <
      digitsVal (computeBmkgEarthquakeId 1671403815000) :=
  ⟨by norm_num, c5_identifier_monotone 1671403814000 1671403815000 (by norm_num)⟩

/-! ## Lemmas: insertion-ordered map operations -/

theorem mapGet_mapSet_self (m : EqMap) (k : String) (v : Earthquake) :
    mapGet (mapSet m k v) k = some v := by
  induction m with
  | nil => simp [mapSet, mapGet]
  | cons p rest ih =>
    obtain ⟨k1, v1⟩ := p
    by_cases h : k1 = k
    · simp [mapSet, mapGet, h]
    · simp [mapSet, mapGet, h, ih]

theorem mapGet_mapSet_ne (m : EqMap) (k k2 : String) (v : Earthquake)
    (h : k ≠ k2) : mapGet (mapSet m k v) k2 = mapGet m k2 := by
  induction m with
  | nil => simp [mapSet, mapGet, h]
  | cons p rest ih =>
    obtain ⟨k1, v1⟩ := p
    by_cases h1 : k1 = k
    · subst h1
      simp [mapSet, mapGet, h]
    · by_cases h2 : k1 = k2
      · subst h2
        simp [mapSet, mapGet, h1, Ne.symm h]
      · simp [mapSet, mapGet, h1, h2, ih]

theorem mapSet_of_not_mem (m : EqMap) (k : String) (v : Earthquake)
    (h : k ∉ m.map Prod.fst) : mapSet m k v = m ++ [(k, v)] := by
  induction m with
  | nil => rfl
  | cons p rest ih =>
    obtain ⟨k1, v1⟩ := p
    simp only [List.map_cons, List.mem_cons] at h
    push_neg at h
    simp [mapSet, Ne.symm h.1, ih h.2]

theorem mapSet_fst_of_mem (m : EqMap) (k : String) (v : Earthquake)
    (h : k ∈ m.map Prod.fst) :
    (mapSet m k v).map Prod.fst = m.map Prod.fst := by
  induction m with
  | nil => simp at h
  | cons p rest ih =>
    obtain ⟨k1, v1⟩ := p
    by_cases h1 : k1 = k
    · simp [mapSet, h1]
    · simp only [List.map_cons, List.mem_cons] at h
      rcases h with h | h
      · exact absurd h.symm h1
      · simp [mapSet, h1, ih h]

theorem mem_mapSet_fst_self (m : EqMap) (k : String) (v : Earthquake) :
    k ∈ (mapSet m k v).map Prod.fst := by
  by_cases h : k ∈ m.map Prod.fst
  · rw [mapSet_fst_of_mem m k v h]
    exact h
  · rw [mapSet_of_not_mem m k v h]
    simp

theorem mapSet_fst_mono (m : EqMap) (k k2 : String) (v : Earthquake)
    (h : k2 ∈ m.map Prod.fst) : k2 ∈ (mapSet m k v).map Prod.fst := by
  by_cases hk : k ∈ m.map Prod.fst
  · rw [mapSet_fst_of_mem m k v hk]
    exact h
  · rw [mapSet_of_not_mem m k v hk]
    simp [h]

theorem mapGet_eq_none_iff (m : EqMap) (k : String) :
    mapGet m k = none ↔ k ∉ m.map Prod.fst := by
  induction m with
  | nil => simp [mapGet]
  | cons p rest ih =>
    obtain ⟨k1, v1⟩ := p
    by_cases h : k1 = k
    · simp [mapGet, h]
    · simp [mapGet, h, ih, Ne.symm h]

theorem mapGet_mem (m : EqMap) (k : String) (v : Earthquake)
    (h : mapGet m k = some v) : (k, v) ∈ m := by
  induction m with
  | nil => simp [mapGet] at h
  | cons p rest ih =>
    obtain ⟨k1, v1⟩ := p
    by_cases h1 : k1 = k
    · subst h1
      simp [mapGet] at h
      simp [h]
    · simp only [mapGet, if_neg h1] at h
      exact List.mem_cons_of_mem _ (ih h)

theorem mapSet_nodup (m : EqMap) (k : String) (v : Earthquake)
    (h : (m.map Prod.fst).Nodup) : ((mapSet m k v).map Prod.fst).Nodup := by
  by_cases hk : k ∈ m.map Prod.fst
  · rw [mapSet_fst_of_mem m k v hk]
    exact h
  · rw [mapSet_of_not_mem m k v hk]
    rw [List.map_append]
    rw [List.nodup_append]
    refine ⟨h, by simp, ?_⟩
    intro a ha hb
    simp at hb
    subst hb
    exact hk ha

/-! ## Lemmas: merge-step structure -/

theorem deepMerge_key (mk : MergeKey) (old f : Earthquake) :
    mergeKeyOf mk (deepMergeEarthquake old f) = mergeKeyOf mk f := by
  cases mk <;> rfl

theorem mergeStep_fst_mono (mk : MergeKey) (m : EqMap) (f : Earthquake)
    (k : String) (h : k ∈ m.map Prod.fst) :
    k ∈ (mergeStep mk m f).map Prod.fst := by
  unfold mergeStep
  cases mapGet m (mergeKeyOf mk f) <;> exact mapSet_fst_mono _ _ _ _ h

theorem mem_fst_foldl (mk : MergeKey) (fresh : List Earthquake) :
    ∀ (m : EqMap) (k : String), k ∈ m.map Prod.fst →
      k ∈ (fresh.foldl (mergeStep mk) m).map Prod.fst := by
  induction fresh with
  | nil => intro m k h; exact h
  | cons f fs ih =>
    intro m k h
    exact ih (mergeStep mk m f) k (mergeStep_fst_mono mk m f k h)

theorem key_mem_mergeStep (mk : MergeKey) (m : EqMap) (f : Earthquake) :
    mergeKeyOf mk f ∈ (mergeStep mk m f).map Prod.fst := by
  unfold mergeStep
  cases mapGet m (mergeKeyOf mk f) <;> exact mem_mapSet_fst_self _ _ _

theorem key_mem_foldl (mk : MergeKey) (fresh : List Earthquake) :
    ∀ (m : EqMap) (f : Earthquake), f ∈ fresh →
      mergeKeyOf mk f ∈ (fresh.foldl (mergeStep mk) m).map Prod.fst := by
  induction fresh with
  | nil => intro m f h; simp at h
  | cons g gs ih =>
    intro m f h
    rcases List.mem_cons.mp h with h | h
    · subst h
      exact mem_fst_foldl mk gs (mergeStep mk m f) _ (key_mem_mergeStep mk m f)
    · exact ih (mergeStep mk m g) f h

theorem mergeStep_fst_of_mem (mk : MergeKey) (m : EqMap) (f : Earthquake)
    (h : mergeKeyOf mk f ∈ m.map Prod.fst) :
    (mergeStep mk m f).map Prod.fst = m.map Prod.fst := by
  unfold mergeStep
  cases hget : mapGet m (mergeKeyOf mk f) with
  | some old => exact mapSet_fst_of_mem _ _ _ h
  | none => exact absurd h ((mapGet_eq_none_iff m _).mp hget)

theorem foldl_fst_of_all_mem (mk : MergeKey) (fresh : List Earthquake) :
    ∀ (m : EqMap), (∀ f ∈ fresh, mergeKeyOf mk f ∈ m.map Prod.fst) →
      (fresh.foldl (mergeStep mk) m).map Prod.fst = m.map Prod.fst := by
  induction fresh with
  | nil => intro m _; rfl
  | cons f fs ih =>
    intro m h
    have hf := h f (List.mem_cons_self f fs)
    have hstep := mergeStep_fst_of_mem mk m f hf
    rw [List.foldl_cons, ih (mergeStep mk m f) ?_, hstep]
    intro g hg
    rw [hstep]
    exact h g (List.mem_cons_of_mem _ hg)

theorem mergeStep_nodup (mk : MergeKey) (m : EqMap) (f : Earthquake)
    (h : (m.map Prod.fst).Nodup) :
    ((mergeStep mk m f).map Prod.fst).Nodup := by
  unfold mergeStep
  cases mapGet m (mergeKeyOf mk f) <;> exact mapSet_nodup _ _ _ h

theorem foldl_nodup (mk : MergeKey) (fresh : List Earthquake) :
    ∀ (m : EqMap), (m.map Prod.fst).Nodup →
      ((fresh.foldl (mergeStep mk) m).map Prod.fst).Nodup := by
  induction fresh with
  | nil => intro m h; exact h
  | cons f fs ih => intro m h; exact ih _ (mergeStep_nodup mk m f h)

theorem buildMap_nodup (mk : MergeKey) (l : List Earthquake) :
    ((buildMap mk l).map Prod.fst).Nodup := by
  unfold buildMap
  generalize hacc : ([] : EqMap) = acc
  have h0 : (acc.map Prod.fst).Nodup := by rw [← hacc]; simp
  clear hacc
  induction l generalizing acc with
  | nil => exact h0
  | cons e es ih => exact ih _ (mapSet_nodup _ _ _ h0)

theorem mapSet_consistent (mk : MergeKey) (m : EqMap) (v : Earthquake)
    (hm : MapConsistent mk m) :
    MapConsistent mk (mapSet m (mergeKeyOf mk v) v) := by
  induction m with
  | nil =>
    intro p hp
    simp [mapSet] at hp
    simp [hp]
  | cons q rest ih =>
    obtain ⟨k1, v1⟩ := q
    have hm1 : MapConsistent mk rest := fun p hp => hm p (List.mem_cons_of_mem _ hp)
    by_cases h : k1 = mergeKeyOf mk v
    · intro p hp
      simp only [mapSet, if_pos h] at hp
      rcases List.mem_cons.mp hp with hp | hp
      · subst hp
        simpa using h
      · exact hm p (List.mem_cons_of_mem _ hp)
    · intro p hp
      simp only [mapSet, if_neg h] at hp
      rcases List.mem_cons.mp hp with hp | hp
      · subst hp
        exact hm (k1, v1) (List.mem_cons_self _ _)
      · exact ih hm1 p hp

theorem mergeStep_consistent (mk : MergeKey) (m : EqMap) (f : Earthquake)
    (hm : MapConsistent mk m) : MapConsistent mk (mergeStep mk m f) := by
  unfold mergeStep
  cases mapGet m (mergeKeyOf mk f) with
  | some old =>
    have := mapSet_consistent mk m (deepMergeEarthquake old f)
    rw [deepMerge_key] at this
    exact this hm
  | none => exact mapSet_consistent mk m f hm

theorem foldl_consistent (mk : MergeKey) (fresh : List Earthquake) :
    ∀ (m : EqMap), MapConsistent mk m →
      MapConsistent mk (fresh.foldl (mergeStep mk) m) := by
  induction fresh with
  | nil => intro m h; exact h
  | cons f fs ih => intro m h; exact ih _ (mergeStep_consistent mk m f h)

theorem buildMap_consistent (mk : MergeKey) (l : List Earthquake) :
    MapConsistent mk (buildMap mk l) := by
  unfold buildMap
  generalize hacc : ([] : EqMap) = acc
  have h0 : MapConsistent mk acc := by rw [← hacc]; intro p hp; simp at hp
  clear hacc
  induction l generalizing acc with
  | nil => exact h0
  | cons e es ih => exact ih _ (mapSet_consistent mk acc e h0)

theorem consistent_fst_eq (mk : MergeKey) (m : EqMap)
    (h : MapConsistent mk m) :
    m.map Prod.fst = (m.map Prod.snd).map (mergeKeyOf mk) := by
  induction m with
  | nil => rfl
  | cons p rest ih =>
    simp only [List.map_cons, List.map_map]
    have hp := h p (List.mem_cons_self _ _)
    rw [hp]
    congr 1
    have := ih (fun q hq => h q (List.mem_cons_of_mem _ hq))
    simpa [List.map_map] using this

/-! ## Lemmas: the deep-merge algebra -/

theorem orReason_assoc (a b c : Option ErroneousDataReason) :
    orReason (orReason a b) c = orReason a (orReason b c) := by
  cases a <;> rfl

theorem orReason_idem (a : Option ErroneousDataReason) :
    orReason a a = a := by
  cases a <;> rfl

theorem mergeMeta_assoc (x y z : Option EarthquakeMeta) :
    mergeMeta (mergeMeta x y) z = mergeMeta x (mergeMeta y z) := by
  cases x with
  | none => cases y <;> cases z <;> rfl
  | some mx =>
    cases y with
    | none => cases z <;> rfl
    | some my =>
      cases z with
      | none => rfl
      | some mz =>
        obtain ⟨rx⟩ := mx
        obtain ⟨ry⟩ := my
        obtain ⟨rz⟩ := mz
        simp only [mergeMeta, EarthquakeMeta.mk.injEq]
        rw [orReason_assoc]

theorem mergeMeta_idem (x : Option EarthquakeMeta) : mergeMeta x x = x := by
  cases x with
  | none => rfl
  | some mx =>
    obtain ⟨rx⟩ := mx
    simp only [mergeMeta, EarthquakeMeta.mk.injEq, Option.some.injEq]
    exact orReason_idem rx

theorem mergeMeta_none_right (x : Option EarthquakeMeta) :
    mergeMeta x none = x := by
  cases x <;> rfl

theorem mergeMeta_none_left (x : Option EarthquakeMeta) :
    mergeMeta none x = x := by
  cases x <;> rfl

theorem deepMerge_assoc (x y z : Earthquake) :
    deepMergeEarthquake (deepMergeEarthquake x y) z =
      deepMergeEarthquake x (deepMergeEarthquake y z) := by
  cases x
  cases y
  cases z
  simp [deepMergeEarthquake, mergeMeta_assoc]

theorem deepMerge_idem (a : Earthquake) : deepMergeEarthquake a a = a := by
  cases a
  simp [deepMergeEarthquake, mergeMeta_idem]

theorem deepMerge_meta_of_fresh_none (a f : Earthquake) (h : f.meta = none) :
    (deepMergeEarthquake a f).meta = a.meta := by
  show mergeMeta a.meta f.meta = a.meta
  rw [h, mergeMeta_none_right]

theorem applyFresh_some (fs : List Earthquake) :
    ∀ a, applyFresh (some a) fs = some (fs.foldl deepMergeEarthquake a) := by
  induction fs with
  | nil => intro a; rfl
  | cons f fs ih => intro a; exact ih (deepMergeEarthquake a f)

theorem foldl_deepMerge_assoc (gs : List Earthquake) :
    ∀ a b, gs.foldl deepMergeEarthquake (deepMergeEarthquake a b) =
      deepMergeEarthquake a (gs.foldl deepMergeEarthquake b) := by
  induction gs with
  | nil => intro a b; rfl
  | cons g gs ih =>
    intro a b
    simp only [List.foldl_cons]
    rw [deepMerge_assoc, ih a (deepMergeEarthquake b g)]

theorem applyFresh_refold (o : Option Earthquake) (fs : List Earthquake) :
    applyFresh (applyFresh o fs) fs = applyFresh o fs := by
  cases fs with
  | nil => cases o <;> rfl
  | cons g gs =>
    cases o with
    | none =>
      show applyFresh (applyFresh (some g) gs) (g :: gs) =
        applyFresh (some g) gs
      rw [applyFresh_some gs g]
      show applyFresh (some (deepMergeEarthquake
        (gs.foldl deepMergeEarthquake g) g)) gs = _
      rw [applyFresh_some gs]
      rw [foldl_deepMerge_assoc gs (gs.foldl deepMergeEarthquake g) g]
      rw [deepMerge_idem]
    | some c =>
      show applyFresh (applyFresh (some (deepMergeEarthquake c g)) gs)
        (g :: gs) = applyFresh (some (deepMergeEarthquake c g)) gs
      rw [applyFresh_some gs (deepMergeEarthquake c g)]
      show applyFresh (some (deepMergeEarthquake
        (gs.foldl deepMergeEarthquake (deepMergeEarthquake c g)) g)) gs = _
      rw [applyFresh_some gs]
      rw [foldl_deepMerge_assoc gs c g]
      rw [foldl_deepMerge_assoc gs (deepMergeEarthquake c
        (gs.foldl deepMergeEarthquake g)) g]
      rw [deepMerge_assoc c (gs.foldl deepMergeEarthquake g)
        (gs.foldl deepMergeEarthquake g)]
      rw [deepMerge_idem]

theorem foldl_mergeStep_get (mk : MergeKey) (fresh : List Earthquake) :
    ∀ (m : EqMap) (k : String),
      mapGet (fresh.foldl (mergeStep mk) m) k =
        applyFresh (mapGet m k)
          (fresh.filter (fun f => decide (mergeKeyOf mk f = k))) := by
  induction fresh with
  | nil =>
    intro m k
    show mapGet m k = applyFresh (mapGet m k) _
    cases hmk : mapGet m k <;> rfl
  | cons f fs ih =>
    intro m k
    rw [List.foldl_cons, ih (mergeStep mk m f) k]
    by_cases hk : mergeKeyOf mk f = k
    · have hfilter : (f :: fs).filter (fun g => decide (mergeKeyOf mk g = k)) =
          f :: fs.filter (fun g => decide (mergeKeyOf mk g = k)) := by
        simp [List.filter_cons, hk]
      rw [hfilter]
      cases hmk : mapGet m k with
      | some c =>
        have hstep : mapGet (mergeStep mk m f) k =
            some (deepMergeEarthquake c f) := by
          unfold mergeStep
          rw [hk, hmk]
          exact mapGet_mapSet_self m k _
        rw [hstep]
        rfl
      | none =>
        have hstep : mapGet (mergeStep mk m f) k = some f := by
          unfold mergeStep
          rw [hk, hmk]
          exact mapGet_mapSet_self m k f
        rw [hstep]
        rfl
    · have hfilter : (f :: fs).filter (fun g => decide (mergeKeyOf mk g = k)) =
          fs.filter (fun g => decide (mergeKeyOf mk g = k)) := by
        simp [List.filter_cons, hk]
      rw [hfilter]
      have hstep : mapGet (mergeStep mk m f) k = mapGet m k := by
        unfold mergeStep
        cases mapGet m (mergeKeyOf mk f) with
        | some old => exact mapGet_mapSet_ne m _ k _ hk
        | none => exact mapGet_mapSet_ne m _ k _ hk
      rw [hstep]

/-! ## Lemmas: map extensionality and rebuilding -/

theorem eqmap_ext :
    ∀ (m1 m2 : EqMap), m1.map Prod.fst = m2.map Prod.fst →
      (m1.map Prod.fst).Nodup →
      (∀ k ∈ m1.map Prod.fst, mapGet m1 k = mapGet m2 k) → m1 = m2 := by
  intro m1
  induction m1 with
  | nil =>
    intro m2 hf _ _
    cases m2 with
    | nil => rfl
    | cons q m2 => simp at hf
  | cons p m1 ih =>
    intro m2 hf hnd hget
    cases m2 with
    | nil => simp at hf
    | cons q m2 =>
      obtain ⟨k1, v1⟩ := p
      obtain ⟨k2, v2⟩ := q
      simp only [List.map_cons, List.cons.injEq] at hf
      obtain ⟨hk12, htail⟩ := hf
      subst hk12
      have hv : v1 = v2 := by
        have h := hget k1 (by simp)
        simp [mapGet] at h
        exact h
      subst hv
      have hnd1 : (m1.map Prod.fst).Nodup := (List.nodup_cons.mp hnd).2
      have hk1notin : k1 ∉ m1.map Prod.fst := (List.nodup_cons.mp hnd).1
      have htl : m1 = m2 := by
        apply ih m2 htail hnd1
        intro k hk
        have hne : k1 ≠ k := by
          intro he
          subst he
          exact hk1notin hk
        have h := hget k (by simp [hk])
        simpa [mapGet, hne] using h
      rw [htl]

theorem foldl_mapSet_pairs :
    ∀ (l : List (String × Earthquake)) (acc : EqMap),
      (l.map Prod.fst).Nodup →
      (∀ k ∈ l.map Prod.fst, k ∉ acc.map Prod.fst) →
      l.foldl (fun m p => mapSet m p.1 p.2) acc = acc ++ l := by
  intro l
  induction l with
  | nil => intro acc _ _; simp
  | cons p l ih =>
    intro acc hnd hdisj
    obtain ⟨k, v⟩ := p
    have hknotin : k ∉ acc.map Prod.fst := hdisj k (by simp)
    rw [List.foldl_cons]
    simp only []
    rw [mapSet_of_not_mem acc k v hknotin]
    rw [ih (acc ++ [(k, v)]) (List.nodup_cons.mp hnd).2 ?_]
    · simp
    · intro k2 hk2
      rw [List.map_append, List.mem_append]
      push_neg
      constructor
      · exact hdisj k2 (by simp [hk2])
      · simp only [List.map_cons, List.map_nil, List.mem_singleton]
        intro he
        subst he
        exact (List.nodup_cons.mp hnd).1 hk2

theorem buildMap_eq_pairs (mk : MergeKey) (l : List Earthquake)
    (h : (l.map (mergeKeyOf mk)).Nodup) :
    buildMap mk l = l.map (fun e => (mergeKeyOf mk e, e)) := by
  unfold buildMap
  have hfold : l.foldl (fun m e => mapSet m (mergeKeyOf mk e) e) [] =
      (l.map (fun e => (mergeKeyOf mk e, e))).foldl
        (fun m p => mapSet m p.1 p.2) [] := by
    rw [List.foldl_map]
  rw [hfold]
  rw [foldl_mapSet_pairs (l.map (fun e => (mergeKeyOf mk e, e))) []
    (by simpa [List.map_map, Function.comp] using h) (by simp)]
  simp

theorem consistent_rebuild (mk : MergeKey) (m : EqMap)
    (hc : MapConsistent mk m) :
    (m.map Prod.snd).map (fun e => (mergeKeyOf mk e, e)) = m := by
  induction m with
  | nil => rfl
  | cons p rest ih =>
    obtain ⟨k, v⟩ := p
    have hk := hc (k, v) (List.mem_cons_self _ _)
    simp only [List.map_cons]
    rw [ih (fun q hq => hc q (List.mem_cons_of_mem _ hq))]
    simp only at hk
    rw [← hk]

theorem merge_refold (mk : MergeKey) (fresh : List Earthquake) (m0 : EqMap)
    (hnd : (m0.map Prod.fst).Nodup) :
    fresh.foldl (mergeStep mk) (fresh.foldl (mergeStep mk) m0) =
      fresh.foldl (mergeStep mk) m0 := by
  have hall : ∀ f ∈ fresh, mergeKeyOf mk f ∈
      (fresh.foldl (mergeStep mk) m0).map Prod.fst := by
    intro f hf
    exact key_mem_foldl mk fresh m0 f hf
  have hfst := foldl_fst_of_all_mem mk fresh (fresh.foldl (mergeStep mk) m0)
    hall
  apply eqmap_ext _ _ hfst
  · rw [hfst]
    exact foldl_nodup mk fresh m0 hnd
  · intro k hk
    rw [foldl_mergeStep_get mk fresh (fresh.foldl (mergeStep mk) m0) k,
      foldl_mergeStep_get mk fresh m0 k]
    exact applyFresh_refold _ _

/-! ## Lemmas: building and looking up with fresh keys -/

theorem mem_fst_foldl_mapSet (mk : MergeKey) (gs : List Earthquake) :
    ∀ (acc : EqMap) (k : String), k ∈ acc.map Prod.fst →
      k ∈ (gs.foldl (fun m e => mapSet m (mergeKeyOf mk e) e) acc).map
        Prod.fst := by
  induction gs with
  | nil => intro acc k h; exact h
  | cons g gs ih =>
    intro acc k h
    exact ih _ k (mapSet_fst_mono _ _ _ _ h)

theorem key_mem_buildMap (mk : MergeKey) (l : List Earthquake)
    (e : Earthquake) (he : e ∈ l) :
    mergeKeyOf mk e ∈ (buildMap mk l).map Prod.fst := by
  unfold buildMap
  generalize hacc : ([] : EqMap) = acc
  clear hacc
  induction l generalizing acc with
  | nil => simp at he
  | cons g gs ih =>
    rcases List.mem_cons.mp he with he | he
    · subst he
      exact mem_fst_foldl_mapSet mk gs _ _ (mem_mapSet_fst_self _ _ _)
    · exact ih he _

theorem foldl_mergeStep_fresh_pairs (mk : MergeKey) :
    ∀ (fresh : List Earthquake) (m : EqMap),
      (∀ f ∈ fresh, mergeKeyOf mk f ∉ m.map Prod.fst) →
      (fresh.map (mergeKeyOf mk)).Nodup →
      fresh.foldl (mergeStep mk) m =
        m ++ fresh.map (fun e => (mergeKeyOf mk e, e)) := by
  intro fresh
  induction fresh with
  | nil => intro m _ _; simp
  | cons f fs ih =>
    intro m hdisj hnd
    have hnotin := hdisj f (List.mem_cons_self f fs)
    have hnone : mapGet m (mergeKeyOf mk f) = none :=
      (mapGet_eq_none_iff _ _).mpr hnotin
    have hstep : mergeStep mk m f = m ++ [(mergeKeyOf mk f, f)] := by
      unfold mergeStep
      rw [hnone]
      exact mapSet_of_not_mem _ _ _ hnotin
    have hndc := List.nodup_cons.mp
      (show (mergeKeyOf mk f :: fs.map (mergeKeyOf mk)).Nodup by
        simpa using hnd)
    rw [List.foldl_cons, hstep,
      ih (m ++ [(mergeKeyOf mk f, f)]) ?_ hndc.2]
    · simp
    · intro g hg
      rw [List.map_append, List.mem_append]
      push_neg
      refine ⟨hdisj g (List.mem_cons_of_mem _ hg), ?_⟩
      simp only [List.map_cons, List.map_nil, List.mem_singleton]
      intro he
      have : mergeKeyOf mk g ∈ fs.map (mergeKeyOf mk) :=
        List.mem_map_of_mem _ hg
      rw [he] at this
      exact hndc.1 this

theorem mapGet_pairs_self (mk : MergeKey) :
    ∀ (l : List Earthquake) (s : Earthquake), s ∈ l →
      (l.map (mergeKeyOf mk)).Nodup →
      mapGet (l.map (fun e => (mergeKeyOf mk e, e))) (mergeKeyOf mk s) =
        some s := by
  intro l
  induction l with
  | nil => intro s hs _; simp at hs
  | cons g gs ih =>
    intro s hs hnd
    rcases List.mem_cons.mp hs with hs | hs
    · subst hs
      simp [mapGet]
    · by_cases hk : mergeKeyOf mk g = mergeKeyOf mk s
      · exfalso
        have : mergeKeyOf mk s ∈ gs.map (mergeKeyOf mk) :=
          List.mem_map_of_mem _ hs
        rw [← hk] at this
        exact (List.nodup_cons.mp hnd).1 this
      · simp only [List.map_cons, mapGet, if_neg hk]
        exact ih s hs (List.nodup_cons.mp hnd).2

theorem map_pairs_snd_id (mk : MergeKey) (l : List Earthquake) :
    (l.map (fun e => (mergeKeyOf mk e, e))).map Prod.snd = l := by
  induction l with
  | nil => rfl
  | cons a l ih => simp [ih]

theorem foldl_deepMerge_meta (fs : List Earthquake) :
    ∀ a, (∀ f ∈ fs, f.meta = none) →
      (fs.foldl deepMergeEarthquake a).meta = a.meta := by
  induction fs with
  | nil => intro a _; rfl
  | cons f fs ih =>
    intro a h
    rw [List.foldl_cons, ih _ (fun g hg => h g (List.mem_cons_of_mem _ hg)),
      deepMerge_meta_of_fresh_none a f (h f (List.mem_cons_self f fs))]

/-! ## Claim theorems: the merge engine (C1, C2, C3, C9, C10) -/

/-- Claim C1: `mergeFeltEarthquakes` folds every fresh record through a key
lookup; an absent key appends the fresh record as a new entry, a present key
deep-merges the fresh record onto the stale one; the deep merge takes every
required field from the fresh record and merges the optional `meta` record
field-by-field favouring fresh (a side missing `meta`, or missing the inner
reason, has it retained from the other side). No `Earthquake` field holds an
array, a `Map` or a `Set`, so the wholesale-replacement rule of
`DEEP_MERGE_OPTIONS` has no field to act on. -/
theorem c1_fresh_handling (mk : MergeKey) (m : EqMap) (f : Earthquake) :
    (∀ stale freshL, mergeFeltEarthquakes stale freshL mk =
      (freshL.foldl (mergeStep mk) (buildMap mk stale)).map Prod.snd) ∧
    (mapGet m (mergeKeyOf mk f) = none →
      mergeStep mk m f = m ++ [(mergeKeyOf mk f, f)]) ∧
    (∀ old, mapGet m (mergeKeyOf mk f) = some old →
      mergeStep mk m f =
        mapSet m (mergeKeyOf mk f) (deepMergeEarthquake old f)) ∧
    (∀ old : Earthquake,
      (deepMergeEarthquake old f).bmkgEarthquakeId = f.bmkgEarthquakeId ∧
      (deepMergeEarthquake old f).fingerprintSha1 = f.fingerprintSha1 ∧
      (deepMergeEarthquake old f).earthquakeAt = f.earthquakeAt ∧
      (deepMergeEarthquake old f).latitude = f.latitude ∧
      (deepMergeEarthquake old f).longitude = f.longitude ∧
      (deepMergeEarthquake old f).magnitude = f.magnitude ∧
      (deepMergeEarthquake old f).depthInKm = f.depthInKm ∧
      (deepMergeEarthquake old f).locationInIndonesian =
        f.locationInIndonesian ∧
      (deepMergeEarthquake old f).feltOnStations = f.feltOnStations ∧
      (deepMergeEarthquake old f).shakeMapUrl = f.shakeMapUrl ∧
      (old.meta = none → (deepMergeEarthquake old f).meta = f.meta) ∧
      (f.meta = none → (deepMergeEarthquake old f).meta = old.meta) ∧
      (∀ mo mf2, old.meta = some mo → f.meta = some mf2 →
        (deepMergeEarthquake old f).meta =
          some { erroneousDataReason :=
            orReason mf2.erroneousDataReason mo.erroneousDataReason })) := by
  refine ⟨fun _ _ => rfl, ?_, ?_, ?_⟩
  · intro h
    unfold mergeStep
    rw [h]
    exact mapSet_of_not_mem _ _ _ ((mapGet_eq_none_iff _ _).mp h)
  · intro old h
    unfold mergeStep
    rw [h]
  · intro old
    refine ⟨rfl, rfl, rfl, rfl, rfl, rfl, rfl, rfl, rfl, rfl, ?_, ?_, ?_⟩
    · intro h
      show mergeMeta old.meta f.meta = f.meta
      rw [h]
      exact mergeMeta_none_left _
    · intro h
      show mergeMeta old.meta f.meta = old.meta
      rw [h]
      exact mergeMeta_none_right _
    · intro mo mf2 ho hf2
      show mergeMeta old.meta f.meta = _
      rw [ho, hf2]
      rfl

/-- Witness for C1 at concrete inputs (both lookup branches and the meta
retention). -/
theorem c1_fresh_handling_witness :
    (mapGet [] (mergeKeyOf MergeKey.bmkgEarthquakeId eqSampleA) = none ∧
      mergeStep MergeKey.bmkgEarthquakeId [] eqSampleA =
        [] ++ [(mergeKeyOf MergeKey.bmkgEarthquakeId eqSampleA, eqSampleA)]) ∧
    (mapGet [(mergeKeyOf MergeKey.bmkgEarthquakeId eqSampleB, eqSampleB)]
        (mergeKeyOf MergeKey.bmkgEarthquakeId eqSampleA) = some eqSampleB ∧
      mergeStep MergeKey.bmkgEarthquakeId
          [(mergeKeyOf MergeKey.bmkgEarthquakeId eqSampleB, eqSampleB)]
          eqSampleA =
        mapSet [(mergeKeyOf MergeKey.bmkgEarthquakeId eqSampleB, eqSampleB)]
          (mergeKeyOf MergeKey.bmkgEarthquakeId eqSampleA)
          (deepMergeEarthquake eqSampleB eqSampleA)) ∧
    (eqSampleA.meta = none ∧
      (deepMergeEarthquake eqSampleB eqSampleA).meta = eqSampleB.meta) :=
  ⟨⟨by decide, (c1_fresh_handling MergeKey.bmkgEarthquakeId [] eqSampleA).2.1
      (by decide)⟩,
   ⟨by decide,
    (c1_fresh_handling MergeKey.bmkgEarthquakeId
      [(mergeKeyOf MergeKey.bmkgEarthquakeId eqSampleB, eqSampleB)]
      eqSampleA).2.2.1 eqSampleB (by decide)⟩,
   ⟨by decide,
    ((c1_fresh_handling MergeKey.bmkgEarthquakeId [] eqSampleA).2.2.2
      eqSampleB).2.2.2.2.2.2.2.2.2.2.2.1 (by decide)⟩⟩

/-- Claim C2: merge never deletes — every stale record's merge key is among
the merge keys of the output. -/
theorem c2_no_deletion (stale fresh : List Earthquake) (mk : MergeKey)
    (s : Earthquake) (hs : s ∈ stale) :
    mergeKeyOf mk s ∈
      (mergeFeltEarthquakes stale fresh mk).map (mergeKeyOf mk) := by
  unfold mergeFeltEarthquakes
  have h0 : mergeKeyOf mk s ∈ (buildMap mk stale).map Prod.fst :=
    key_mem_buildMap mk stale s hs
  have h1 := mem_fst_foldl mk fresh (buildMap mk stale) _ h0
  have hcons := foldl_consistent mk fresh _ (buildMap_consistent mk stale)
  rw [consistent_fst_eq mk _ hcons] at h1
  exact h1

/-- Witness for C2 at concrete inputs. -/
theorem c2_no_deletion_witness :
    eqSampleA ∈ [eqSampleA] ∧
    mergeKeyOf MergeKey.bmkgEarthquakeId eqSampleA ∈
      (mergeFeltEarthquakes [eqSampleA] [] MergeKey.bmkgEarthquakeId).map
        (mergeKeyOf MergeKey.bmkgEarthquakeId) :=
  ⟨by decide,
   c2_no_deletion [eqSampleA] [] MergeKey.bmkgEarthquakeId eqSampleA
     (by decide)⟩

/-- Claim C3: merging the same fresh collection into the merge's own output
again reproduces that output exactly — same records, same fields, same
order. -/
theorem c3_merge_idempotent (stale fresh : List Earthquake) (mk : MergeKey) :
    mergeFeltEarthquakes (mergeFeltEarthquakes stale fresh mk) fresh mk =
      mergeFeltEarthquakes stale fresh mk := by
  unfold mergeFeltEarthquakes
  have hnd0 := buildMap_nodup mk stale
  have hndf := foldl_nodup mk fresh _ hnd0
  have hcons := foldl_consistent mk fresh _ (buildMap_consistent mk stale)
  have hkeys : (((fresh.foldl (mergeStep mk) (buildMap mk stale)).map
      Prod.snd).map (mergeKeyOf mk)).Nodup := by
    rw [← consistent_fst_eq mk _ hcons]
    exact hndf
  have hrebuild : buildMap mk ((fresh.foldl (mergeStep mk)
      (buildMap mk stale)).map Prod.snd) =
      fresh.foldl (mergeStep mk) (buildMap mk stale) := by
    rw [buildMap_eq_pairs mk _ hkeys]
    exact consistent_rebuild mk _ hcons
  rw [hrebuild, merge_refold mk fresh _ hnd0]

/-- Claim C9, amended: merging with an empty fresh collection returns the
stale collection unchanged, and merging an empty stale collection returns
exactly the fresh records in order, provided the respective collection's
merge keys are pairwise distinct; with duplicate keys the `Map` collapses
them (see the counterexample). -/
theorem c9_empty_merges :
    (∀ (stale : List Earthquake) (mk : MergeKey),
      (stale.map (mergeKeyOf mk)).Nodup →
      mergeFeltEarthquakes stale [] mk = stale) ∧
    (∀ (fresh : List Earthquake) (mk : MergeKey),
      (fresh.map (mergeKeyOf mk)).Nodup →
      mergeFeltEarthquakes [] fresh mk = fresh) := by
  constructor
  · intro stale mk h
    unfold mergeFeltEarthquakes
    rw [List.foldl_nil, buildMap_eq_pairs mk stale h]
    exact map_pairs_snd_id mk stale
  · intro fresh mk h
    unfold mergeFeltEarthquakes
    rw [show buildMap mk [] = [] from rfl]
    rw [foldl_mergeStep_fresh_pairs mk fresh [] (by simp) h]
    rw [List.nil_append]
    exact map_pairs_snd_id mk fresh

/-- Witness for C9's amended theorem at concrete inputs. -/
theorem c9_empty_merges_witness :
    (([eqSampleA].map (mergeKeyOf MergeKey.bmkgEarthquakeId)).Nodup ∧
      mergeFeltEarthquakes [eqSampleA] [] MergeKey.bmkgEarthquakeId =
        [eqSampleA]) ∧
    (([eqSampleA].map (mergeKeyOf MergeKey.fingerprintSha1)).Nodup ∧
      mergeFeltEarthquakes [] [eqSampleA] MergeKey.fingerprintSha1 =
        [eqSampleA]) :=
  ⟨⟨by decide, c9_empty_merges.1 [eqSampleA] MergeKey.bmkgEarthquakeId
      (by decide)⟩,
   ⟨by decide, c9_empty_merges.2 [eqSampleA] MergeKey.fingerprintSha1
      (by decide)⟩⟩

/-- Counterexample to claim C9 as stated (universally over all
collections): with two stale records sharing a merge key, merging with an
empty fresh collection collapses them instead of returning the stale
collection unchanged; dually for two fresh records sharing a key on an
empty stale collection. -/
theorem c9_counterexample :
    mergeFeltEarthquakes [eqSampleA, eqSampleB] [] MergeKey.bmkgEarthquakeId =
      [eqSampleB] ∧
    mergeFeltEarthquakes [eqSampleA, eqSampleB] [] MergeKey.bmkgEarthquakeId ≠
      [eqSampleA, eqSampleB] ∧
    mergeFeltEarthquakes [] [eqSampleA, eqSampleB] MergeKey.bmkgEarthquakeId ≠
      [eqSampleA, eqSampleB] := by
  refine ⟨by decide, by decide, by decide⟩

/-- Claim C10: an anomaly tag persisted on a stale record survives merging
with fresh records (matching by key) that carry no `meta` object. -/
theorem c10_anomaly_preserved (stale fresh : List Earthquake)
    (mk : MergeKey) (s : Earthquake) (r : ErroneousDataReason)
    (hs : s ∈ stale)
    (hnd : (stale.map (mergeKeyOf mk)).Nodup)
    (hmeta : s.meta = some { erroneousDataReason := some r })
    (hfresh : ∀ f ∈ fresh,
      mergeKeyOf mk f = mergeKeyOf mk s → f.meta = none) :
    ∃ v ∈ mergeFeltEarthquakes stale fresh mk,
      mergeKeyOf mk v = mergeKeyOf mk s ∧
      v.meta = some { erroneousDataReason := some r } := by
  unfold mergeFeltEarthquakes
  have hget0 : mapGet (buildMap mk stale) (mergeKeyOf mk s) = some s := by
    rw [buildMap_eq_pairs mk stale hnd]
    exact mapGet_pairs_self mk stale s hs hnd
  have hgetf := foldl_mergeStep_get mk fresh (buildMap mk stale)
    (mergeKeyOf mk s)
  rw [hget0, applyFresh_some] at hgetf
  have hmetaw : ((fresh.filter
      (fun f => decide (mergeKeyOf mk f = mergeKeyOf mk s))).foldl
        deepMergeEarthquake s).meta = s.meta := by
    apply foldl_deepMerge_meta
    intro f hf
    have hmf := List.mem_filter.mp hf
    exact hfresh f hmf.1 (of_decide_eq_true hmf.2)
  refine ⟨_, List.mem_map_of_mem Prod.snd (mapGet_mem _ _ _ hgetf), ?_, ?_⟩
  · have hcons := foldl_consistent mk fresh _ (buildMap_consistent mk stale)
    exact (hcons _ (mapGet_mem _ _ _ hgetf)).symm
  · rw [hmetaw, hmeta]

/-- Witness for C10 at concrete inputs: the fresh re-normalisation
`eqSampleA` of the flagged stale record `eqSampleB` carries no meta, and the
merged record still carries the reason. -/
theorem c10_anomaly_preserved_witness :
    (eqSampleB ∈ [eqSampleB] ∧
      ([eqSampleB].map (mergeKeyOf MergeKey.bmkgEarthquakeId)).Nodup ∧
      eqSampleB.meta = some { erroneousDataReason := some .FUTURE_EARTHQUAKE } ∧
      (∀ f ∈ [eqSampleA],
        mergeKeyOf MergeKey.bmkgEarthquakeId f =
          mergeKeyOf MergeKey.bmkgEarthquakeId eqSampleB → f.meta = none)) ∧
    ∃ v ∈ mergeFeltEarthquakes [eqSampleB] [eqSampleA]
        MergeKey.bmkgEarthquakeId,
      mergeKeyOf MergeKey.bmkgEarthquakeId v =
        mergeKeyOf MergeKey.bmkgEarthquakeId eqSampleB ∧
      v.meta = some { erroneousDataReason := some .FUTURE_EARTHQUAKE } :=
  ⟨⟨by decide, by decide, by decide, by decide⟩,
   c10_anomaly_preserved [eqSampleB] [eqSampleA] MergeKey.bmkgEarthquakeId
     eqSampleB ErroneousDataReason.FUTURE_EARTHQUAKE (by decide) (by decide)
     (by decide) (by decide)⟩

/-! ## Lemmas: fingerprint format -/

theorem hex8_length (w : Nat) : (hex8 w).length = 8 := by
  simp [hex8]

theorem hexDigitChar_lower : ∀ d < 16, isLowerHexChar (hexDigitChar d) = true := by
  decide

theorem sha1Hex_length (s : String) : (sha1Hex s).data.length = 40 := by
  simp only [sha1Hex, List.length_append, hex8_length]

theorem sha1Hex_chars (s : String) :
    ∀ c ∈ (sha1Hex s).data, isLowerHexChar c = true := by
  intro c hc
  have hgen : ∀ w, c ∈ hex8 w → isLowerHexChar c = true := by
    intro w hw
    simp only [hex8, List.mem_map] at hw
    obtain ⟨i, _, hce⟩ := hw
    subst hce
    exact hexDigitChar_lower _ (Nat.mod_lt _ (by norm_num))
  simp only [sha1Hex, List.mem_append] at hc
  rcases hc with (((hc | hc) | hc) | hc) | hc <;> exact hgen _ hc

/-! ## Claim theorems: fingerprint and anomaly tag (C6, C7) -/

/-- Claim C6: the fingerprint is a function of exactly the
(ISO timestamp, latitude, longitude, magnitude, depth) tuple — equal tuples
give equal digests regardless of the reference time; changing only
`feltOnStations` (`Dirasakan`) or only `locationInIndonesian` (`Wilayah`)
never changes it — and every fingerprint is 40 lowercase hex characters. -/
theorem c6_fingerprint_deterministic :
    (∀ (n1 n2 : Nat) (v1 v2 : ValidatedGempa),
      v1.dateTimeMs = v2.dateTimeMs → v1.latitude = v2.latitude →
      v1.longitude = v2.longitude → v1.magnitude = v2.magnitude →
      v1.depthInKm = v2.depthInKm →
      (transformEntry n1 v1).fingerprintSha1 =
        (transformEntry n2 v2).fingerprintSha1) ∧
    (∀ (n : Nat) (v : ValidatedGempa) (s : String),
      (transformEntry n { v with dirasakan := s }).fingerprintSha1 =
        (transformEntry n v).fingerprintSha1) ∧
    (∀ (n : Nat) (v : ValidatedGempa) (s : String),
      (transformEntry n { v with wilayah := s }).fingerprintSha1 =
        (transformEntry n v).fingerprintSha1) ∧
    (∀ (n : Nat) (v : ValidatedGempa),
      (transformEntry n v).fingerprintSha1.data.length = 40 ∧
      ∀ c ∈ (transformEntry n v).fingerprintSha1.data,
        isLowerHexChar c = true) := by
  have hproj : ∀ (n : Nat) (v : ValidatedGempa),
      (transformEntry n v).fingerprintSha1 = fingerprintSha1Of
        { earthquakeAt := isoStringOfMs v.dateTimeMs,
          latitude := v.latitude, longitude := v.longitude,
          magnitude := v.magnitude, depthInKm := v.depthInKm } :=
    fun n v => rfl
  refine ⟨?_, ?_, ?_, ?_⟩
  · intro n1 n2 v1 v2 h1 h2 h3 h4 h5
    rw [hproj, hproj, h1, h2, h3, h4, h5]
  · intro n v s
    rfl
  · intro n v s
    rfl
  · intro n v
    rw [hproj]
    exact ⟨sha1Hex_length _, sha1Hex_chars _⟩

/-- Witness for C6: equal five-field tuples under different reference times
give the same fingerprint, and it has the stated format. -/
theorem c6_fingerprint_deterministic_witness :
    vSample.dateTimeMs = vSample.dateTimeMs ∧
    ((transformEntry 0 vSample).fingerprintSha1 =
      (transformEntry 1 vSample).fingerprintSha1) ∧
    ((transformEntry 0 vSample).fingerprintSha1.data.length = 40 ∧
      ∀ c ∈ (transformEntry 0 vSample).fingerprintSha1.data,
        isLowerHexChar c = true) :=
  ⟨rfl,
   c6_fingerprint_deterministic.1 0 1 vSample vSample rfl rfl rfl rfl rfl,
   (c6_fingerprint_deterministic.2.2.2 0 vSample)⟩

/-- Claim C7: the normalized event carries
`meta.erroneousDataReason = FUTURE_EARTHQUAKE` exactly when its timestamp is
strictly after the supplied reference instant; otherwise it carries no
`meta`; and the reference instant influences no other field, nor whether the
batch parse succeeds. -/
theorem c7_future_tag (e : RawGempa) (v : ValidatedGempa) (now : Nat)
    (hv : validateGempa e = some v) :
    ((transformEntry now v).meta =
      if now < v.dateTimeMs then
        some { erroneousDataReason := some .FUTURE_EARTHQUAKE }
      else none) ∧
    ((transformEntry now v).meta =
        some { erroneousDataReason := some .FUTURE_EARTHQUAKE } ↔
      now < v.dateTimeMs) ∧
    (∀ now2 : Nat,
      (transformEntry now v).bmkgEarthquakeId =
        (transformEntry now2 v).bmkgEarthquakeId ∧
      (transformEntry now v).fingerprintSha1 =
        (transformEntry now2 v).fingerprintSha1 ∧
      (transformEntry now v).earthquakeAt =
        (transformEntry now2 v).earthquakeAt ∧
      (transformEntry now v).latitude = (transformEntry now2 v).latitude ∧
      (transformEntry now v).longitude = (transformEntry now2 v).longitude ∧
      (transformEntry now v).magnitude = (transformEntry now2 v).magnitude ∧
      (transformEntry now v).depthInKm = (transformEntry now2 v).depthInKm ∧
      (transformEntry now v).locationInIndonesian =
        (transformEntry now2 v).locationInIndonesian ∧
      (transformEntry now v).feltOnStations =
        (transformEntry now2 v).feltOnStations ∧
      (transformEntry now v).shakeMapUrl =
        (transformEntry now2 v).shakeMapUrl) ∧
    (∀ (doc : RawDoc) (n1 n2 : Nat),
      (parseBmkgApiRes n1 doc).isOk = (parseBmkgApiRes n2 doc).isOk) := by
  refine ⟨rfl, ?_, ?_, ?_⟩
  · by_cases h : now < v.dateTimeMs
    · simp [transformEntry, h]
    · simp [transformEntry, h]
  · intro now2
    exact ⟨rfl, rfl, rfl, rfl, rfl, rfl, rfl, rfl, rfl, rfl⟩
  · intro doc n1 n2
    unfold parseBmkgApiRes
    by_cases hc : (doc.Infogempa.gempa.enum.flatMap
        (fun p => (gempaFieldIssues p.2).map
          (fun f => ({ index := p.1, field := f } : ValidationIssue)))).isEmpty
    · rw [if_pos hc, if_pos hc]
      rfl
    · rw [if_neg hc, if_neg hc]

/-- Witness for C7 at a concrete raw entry, with the reference time once
before and once at the event instant. -/
theorem c7_future_tag_witness :
    validateGempa rawSample = some vSample ∧
    ((transformEntry 0 vSample).meta =
      if 0 < vSample.dateTimeMs then
        some { erroneousDataReason := some .FUTURE_EARTHQUAKE }
      else none) ∧
    ((transformEntry 1671403814000 vSample).meta =
      if 1671403814000 < vSample.dateTimeMs then
        some { erroneousDataReason := some .FUTURE_EARTHQUAKE }
      else none) :=
  ⟨by decide,
   (c7_future_tag rawSample vSample 0 (by decide)).1,
   (c7_future_tag rawSample vSample 1671403814000 (by decide)).1⟩

/-! ## Lemmas: batch validation (C8) -/

theorem validateGempa_of_no_issues (e : RawGempa)
    (h : gempaFieldIssues e = []) : (validateGempa e).isSome = true := by
  obtain ⟨dt, co, ma, ke, wi, di⟩ := e
  cases dt with
  | nonString => simp [gempaFieldIssues] at h
  | str sdt =>
  cases co with
  | nonString => simp [gempaFieldIssues] at h
  | str sco =>
  cases ma with
  | nonString => simp [gempaFieldIssues] at h
  | str sma =>
  cases ke with
  | nonString => simp [gempaFieldIssues] at h
  | str ske =>
  cases wi with
  | nonString => simp [gempaFieldIssues] at h
  | str swi =>
  cases di with
  | nonString => simp [gempaFieldIssues] at h
  | str sdi =>
  have hdt : (parseIsoDatetimeMs sdt).isSome = true := by
    by_contra hns
    simp [gempaFieldIssues, hns] at h
  have hco : coordinatesValid sco = true := by
    by_contra hns
    simp [gempaFieldIssues, hns] at h
  have hke : kedalamanValid ske = true := by
    by_contra hns
    simp [gempaFieldIssues, hns] at h
  obtain ⟨ms, hms⟩ := Option.isSome_iff_exists.mp hdt
  simp [validateGempa, hms, hco, hke]

theorem filterMap_validate_length :
    ∀ (l : List RawGempa), (∀ e ∈ l, (validateGempa e).isSome = true) →
      (l.filterMap validateGempa).length = l.length := by
  intro l
  induction l with
  | nil => intro _; rfl
  | cons e es ih =>
    intro h
    obtain ⟨v, hv⟩ := Option.isSome_iff_exists.mp
      (h e (List.mem_cons_self e es))
    rw [List.filterMap_cons, hv]
    simp only [List.length_cons]
    rw [ih (fun g hg => h g (List.mem_cons_of_mem _ hg))]

theorem issue_mem_batch (doc : RawDoc) (i : Nat) (e : RawGempa)
    (f : FieldName) (hget : doc.Infogempa.gempa[i]? = some e)
    (hf : f ∈ gempaFieldIssues e) :
    ({ index := i, field := f } : ValidationIssue) ∈
      doc.Infogempa.gempa.enum.flatMap
        (fun p => (gempaFieldIssues p.2).map
          (fun g => ({ index := p.1, field := g } : ValidationIssue))) := by
  rw [List.mem_flatMap]
  refine ⟨(i, e), ?_, ?_⟩
  · rw [List.mk_mem_enum_iff_getElem?]
    exact hget
  · exact List.mem_map_of_mem _ hf

/-! ## Claim theorem: all-or-nothing validation (C8) -/

/-- Claim C8, amended: a failing entry field check — a non-string where a
string is required, a malformed `Coordinates` string, a malformed
`Kedalaman` (depth) string, or an invalid `DateTime` string — fails the
whole normalization with an error naming the entry index and field, and a
successful normalization yields exactly one event per raw entry (nothing is
dropped). The `Magnitude` string, however, is only validated to be a
string: an unparsable one does not abort the batch and yields a `NaN`
magnitude (see the counterexample). -/
theorem c8_all_or_nothing :
    (∀ (now : Nat) (doc : RawDoc) (i : Nat) (e : RawGempa) (f : FieldName),
      doc.Infogempa.gempa[i]? = some e → f ∈ gempaFieldIssues e →
      ∃ errs, parseBmkgApiRes now doc = .error errs ∧
        ({ index := i, field := f } : ValidationIssue) ∈ errs) ∧
    (∀ (now : Nat) (doc : RawDoc) (l : List Earthquake),
      parseBmkgApiRes now doc = .ok l →
      l.length = doc.Infogempa.gempa.length) := by
  constructor
  · intro now doc i e f hget hf
    have hmem := issue_mem_batch doc i e f hget hf
    refine ⟨_, ?_, hmem⟩
    unfold parseBmkgApiRes
    rw [if_neg ?_]
    rw [List.isEmpty_iff]
    intro h0
    rw [h0] at hmem
    simp at hmem
  · intro now doc l hok
    unfold parseBmkgApiRes at hok
    by_cases hc : (doc.Infogempa.gempa.enum.flatMap
        (fun p => (gempaFieldIssues p.2).map
          (fun f => ({ index := p.1, field := f } : ValidationIssue)))).isEmpty
    · rw [if_pos hc] at hok
      have hl : (doc.Infogempa.gempa.filterMap validateGempa).map
          (transformEntry now) = l := by
        injection hok
      have hall : ∀ e ∈ doc.Infogempa.gempa, (validateGempa e).isSome = true := by
        intro e he
        apply validateGempa_of_no_issues
        by_contra hne
        obtain ⟨f, hf⟩ := List.exists_mem_of_ne_nil _ hne
        obtain ⟨i, hlt, hie⟩ := List.getElem_of_mem he
        have hget : doc.Infogempa.gempa[i]? = some e := by
          rw [List.getElem?_eq_getElem hlt, hie]
        have hmem := issue_mem_batch doc i e f hget hf
        rw [List.isEmpty_iff] at hc
        rw [hc] at hmem
        simp at hmem
      rw [← hl, List.length_map]
      exact filterMap_validate_length _ hall
    · rw [if_neg hc] at hok
      simp at hok

/-- Witness for C8's amended theorem: a malformed depth string in a
one-entry document makes the whole parse fail with the issue at index 0. -/
theorem c8_all_or_nothing_witness :
    badDepthDoc.Infogempa.gempa[0]? = some rawBadDepth ∧
    FieldName.Kedalaman ∈ gempaFieldIssues rawBadDepth ∧
    ∃ errs, parseBmkgApiRes 0 badDepthDoc = .error errs ∧
      ({ index := 0, field := FieldName.Kedalaman } : ValidationIssue) ∈
        errs :=
  ⟨by decide, by decide,
   c8_all_or_nothing.1 0 badDepthDoc 0 rawBadDepth FieldName.Kedalaman
     (by decide) (by decide)⟩

/-- Counterexample to claim C8 as stated: an entry whose `Magnitude` string
is unparsable ("abc") does not fail validation — the batch parse succeeds,
keeps the entry, and records a `NaN` magnitude — contradicting "unparsable
… magnitude string … fails the entire normalization … produces no event
list at all". -/
theorem c8_counterexample :
    rawBadMag.Magnitude = RawField.str "abc" ∧
    (parseBmkgApiRes 0 badMagDoc).isOk = true ∧
    (parseBmkgApiRes 0 badMagDoc).toOption.map
      (fun l => l.map Earthquake.magnitude) = some [JsNumber.nan] := by
  refine ⟨rfl, rfl, rfl⟩
